import Mathlib

/-!
Shallow embedding of the `Configuration` class of the hcconfig repository
(`src/Configuration.class.ts`, the version shipped in the package) together
with its error codes and level tags.

JavaScript objects are modelled as association lists `List (String × α)`
whose observable semantics follow JS object literals: a later entry for the
same key shadows an earlier one, so `lookupKey` returns the LAST matching
entry, and the spread `{...a, ...b}` is a left fold of upserts of `b` into
`a` (`spreadMerge`).  Callbacks cannot be embedded as effectful functions,
so a rebuild returns the list of notification events (listener id plus the
payload object the callback receives); a payload value of `Option.none`
models a property explicitly set to JS `undefined`.  Timers are modelled by
two booleans: `backendUpdateTimeout` (the field holds a non-null handle —
note `clearTimeout` does not null the field) and `pendingTimer` (a live
scheduled invocation exists in the runtime timer table).  The in-place
mutations `valObj.level = level` and `valObj.readonly = true` performed on
cell objects aliased between the effective config and the level stores are
modelled on the effective config only: under the store-tagging invariant
proved below the level assignment is a no-op on stores, and no theorem in
this file inspects a store's readonly flag after a rebuild.
-/

/-- The `CONFIGLEVEL` enum (`src/enums/CONFIGLEVEL.ts`): the five precedence
tiers, low to high precedence. -/
inductive CONFIGLEVEL where
  | DEFAULT
  | ENVIRONMENT
  | BACKEND
  | USER
  | DYNAMIC
deriving DecidableEq, Repr

/-- A primitive JS value usable as a configuration value: string, number or
boolean (`ConfigValue = string | number | boolean | IConfigurationObject`). -/
inductive Scalar where
  | str (s : String)
  | num (n : Int)
  | bool (b : Bool)
deriving DecidableEq, Repr

/-- A `ConfigValue`: either a bare scalar, or an `IConfigurationObject`
cell `{ value, level, readonly? }` (the `readonly` field is optional, hence
`Option Bool`; the `value` field is itself a `ConfigValue`). -/
inductive ConfigValue where
  | prim (s : Scalar)
  | obj (value : ConfigValue) (level : CONFIGLEVEL) (readonly : Option Bool)
deriving DecidableEq, Repr

/-- A JS object holding configuration entries (`IConfig` / `Partial<T>`). -/
abbrev CMap := List (String × ConfigValue)

/-- JS property read `m[k]`: the last entry for `k` wins (later literal
entries shadow earlier ones), `none` models `undefined`. -/
def lookupKey : CMap → String → Option ConfigValue
  | [], _ => none
  | p :: rest, k =>
    match lookupKey rest k with
    | some v => some v
    | none => if p.1 = k then some p.2 else none

/-- JS `key in m` / `hasOwnProperty`. -/
def hasKey (m : CMap) (k : String) : Bool := m.any (fun p => p.1 = k)

/-- JS property write `m[k] = v`: replaces the entries for `k` when present,
otherwise appends the new key. -/
def upsert (m : CMap) (k : String) (v : ConfigValue) : CMap :=
  if hasKey m k then m.map (fun p => if p.1 = k then (k, v) else p) else m ++ [(k, v)]

/-- JS object spread `{...a, ...b}`: the entries of `b` are written over `a`
one by one. -/
def spreadMerge (a : CMap) : CMap → CMap
  | [] => a
  | p :: rest => spreadMerge (upsert a p.1 p.2) rest

/-- JS `delete m[k]`. -/
def eraseKey (m : CMap) (k : String) : CMap := m.filter (fun p => p.1 ≠ k)

/-- `Set.add` on the changed-keys buffer (a set of keys, insertion order). -/
def addKey (buf : List String) (k : String) : List String :=
  if buf.contains k then buf else buf ++ [k]

/-- JS truthiness of a `ConfigValue` (`false`, `0`, `""` are falsy; every
object is truthy). -/
def jsFalsy : ConfigValue → Bool
  | .prim (.bool false) => true
  | .prim (.num 0) => true
  | .prim (.str "") => true
  | _ => false

/-- The `level` field of a cell (`undefined` on a bare scalar). -/
def cellLevel : ConfigValue → Option CONFIGLEVEL
  | .prim _ => none
  | .obj _ l _ => some l

/-- The `value` field of a cell (`undefined` on a bare scalar). -/
def cellValue : ConfigValue → Option ConfigValue
  | .prim _ => none
  | .obj v _ _ => some v

/-- One step of `buildConfigurationObjects`: an object value gets
`valObj.level = level` assigned in place; a primitive is wrapped into
`{ value, readonly: readOnlyKeys.includes(key), level }`. -/
def buildOne (ro : List String) (level : CONFIGLEVEL) (k : String) : ConfigValue → ConfigValue
  | .obj v _ r => .obj v level r
  | .prim s => .obj (.prim s) level (some (ro.contains k))

/-- `buildConfigurationObjects(conf, level)`: convert a config object with
direct values into one with `IConfigurationObject` entries. -/
def buildConfigurationObjects (ro : List String) (conf : CMap) (level : CONFIGLEVEL) : CMap :=
  conf.map (fun p => (p.1, buildOne ro level p.1 p.2))

/-- `buildDefaultValues(conf)`: defaults are built at level `DEFAULT`. -/
def buildDefaultValues (ro : List String) (conf : CMap) : CMap :=
  buildConfigurationObjects ro conf .DEFAULT

/-- The per-entry action of `resetReadOnlyFlags`: when the key is in the
read-only set and the stored value is an object, set `readonly = true`. -/
def roAdjust (ro : List String) (k : String) (v : ConfigValue) : ConfigValue :=
  if ro.contains k then
    match v with
    | .obj a l _ => .obj a l (some true)
    | w => w
  else v

/-- `resetReadOnlyFlags`: for every key of the effective config that is in
the read-only set, set `readonly = true` on its cell (only when the stored
value is an object). -/
def resetReadOnlyFlags (ro : List String) (cfg : CMap) : CMap :=
  cfg.map (fun p => (p.1, roAdjust ro p.1 p.2))

/-- Error codes thrown as `ConfigurationError` (`src/enums/ERRORCODES.ts`);
only the codes reachable from the modelled operations are listed.
`DEFAULTCONFIG_MUST_BE_OBJECT` is declared in the source enum but no code
path raises it. -/
inductive ConfigError where
  | CONFIGURATIONS_NOT_BUILT_YET
  | UNKNOWN_CONFIG_KEY
  | NO_BACKEND_UPDATE_FN
  | BACKEND_UPDATE_FAILED (cause : String)
deriving DecidableEq, Repr

/-- `IConfigurationOptions` after the constructor's defaults spread.  The
backend update function itself cannot be stored (it is an effectful oracle
supplied at each modelled invocation), so only its presence is recorded. -/
structure CfgOptions where
  singleton : Bool
  hasBackendUpdateFn : Bool
  backendUpdateIntervalMs : Nat
  backendUpdateStartImmediate : Bool
  readOnlyKeys : List String
deriving DecidableEq, Repr

/-- An `IListener` registration: the callback identity is represented by the
generated id string. -/
structure Listener where
  id : String
  keys : List String
deriving DecidableEq, Repr

/-- A notification: `listenerId`'s callback was invoked with `payload`
(`none` in a payload value models a property set to `undefined`; a listener
with empty `keys` receives the full config). -/
structure NotifyEvent where
  listenerId : String
  payload : List (String × Option ConfigValue)
deriving DecidableEq, Repr

/-- The mutable state of one `Configuration` instance. -/
structure ConfigState where
  options : CfgOptions
  defaultConfig : CMap
  environmentConfig : CMap
  backendConfig : CMap
  userConfig : CMap
  dynamicConfig : CMap
  changedKeysBuffer : List String
  config : Option CMap
  listeners : List Listener
  backendUpdateTimeout : Bool
  pendingTimer : Bool
deriving DecidableEq, Repr

/-- The merged effective object computed by `buildConfig` (the five spreads
followed by `resetReadOnlyFlags`). -/
def buildConfigEff (s : ConfigState) : CMap :=
  resetReadOnlyFlags s.options.readOnlyKeys
    (spreadMerge
      (spreadMerge
        (spreadMerge
          (spreadMerge
            (buildDefaultValues s.options.readOnlyKeys s.defaultConfig)
            (buildConfigurationObjects s.options.readOnlyKeys s.environmentConfig .ENVIRONMENT))
          (buildConfigurationObjects s.options.readOnlyKeys s.backendConfig .BACKEND))
        (buildConfigurationObjects s.options.readOnlyKeys s.userConfig .USER))
      (buildConfigurationObjects s.options.readOnlyKeys s.dynamicConfig .DYNAMIC))

/-- JS property write `m[k] = v` on a payload object whose values may be
`undefined` (the `Option` is the value written, not absence). -/
def setProp (m : List (String × Option ConfigValue)) (k : String) (v : Option ConfigValue) :
    List (String × Option ConfigValue) :=
  if m.any (fun p => p.1 = k) then m.map (fun p => if p.1 = k then (k, v) else p)
  else m ++ [(k, v)]

/-- The payload `relevantChanges` accumulated for a listener with non-empty
`keys`: for each subscribed key in the changed-keys buffer, the property is
set to `this.config[key]` (possibly `undefined`). -/
def relevantChanges (cfg : CMap) (buf : List String) (keys : List String) :
    List (String × Option ConfigValue) :=
  keys.foldl
    (fun acc k => if buf.contains k then setProp acc k (lookupKey cfg k) else acc)
    []

/-- The event delivered to one listener during `triggerListeners`, if any:
empty `keys` means the full config is delivered; otherwise the callback runs
only when `relevantChanges` has at least one property. -/
def listenerEvent (cfg : CMap) (buf : List String) (l : Listener) : Option NotifyEvent :=
  if l.keys = [] then some ⟨l.id, cfg.map (fun p => (p.1, some p.2))⟩
  else
    let rc := relevantChanges cfg buf l.keys
    if rc.isEmpty then none else some ⟨l.id, rc⟩

/-- `triggerListeners`: no-op when `config` is null (the buffer is NOT
cleared on that branch); otherwise each listener is visited once in
registration order and the buffer is cleared afterwards. -/
def triggerListeners (s : ConfigState) : ConfigState × List NotifyEvent :=
  match s.config with
  | none => (s, [])
  | some cfg => ({ s with changedKeysBuffer := [] }, s.listeners.filterMap (listenerEvent cfg s.changedKeysBuffer))

/-- `buildConfig`: recompute the effective config from the five stores, then
run `triggerListeners` (which re-applies read-only flags having already been
folded into `buildConfigEff`). -/
def buildConfig (s : ConfigState) : ConfigState × List NotifyEvent :=
  triggerListeners { s with config := some (buildConfigEff s) }

/-- The `defaultConfig` constructor argument before any validation: the
constructor accepts any JS value here.  `jsObjectEntries` reproduces
`Object.keys`-driven enumeration: objects yield their entries, strings
yield their indexed characters, numbers and booleans have no enumerable
keys. -/
inductive DefaultInput where
  | objInput (m : CMap)
  | strInput (s : String)
  | numInput (n : Int)
  | boolInput (b : Bool)
deriving DecidableEq, Repr

/-- Enumerable own properties of a `DefaultInput`, as seen by
`Object.keys(conf)` and `conf[key]` inside `buildConfigurationObjects`. -/
def jsObjectEntries : DefaultInput → CMap
  | .objInput m => m
  | .strInput s => s.data.enum.map (fun p => (toString p.1, .prim (.str (String.mk [p.2]))))
  | .numInput _ => []
  | .boolInput _ => []

/-- The constructor (singleton return path aside): merge the options over
their defaults, build the default store with `buildDefaultValues`, then run
the initial `buildConfig`.  No validation of `defaultConfig` is performed
anywhere on this path, so construction is a total function. -/
def constructFn (defaultConfig : DefaultInput) (options : CfgOptions) : ConfigState :=
  let s0 : ConfigState :=
    { options := options
      defaultConfig := buildDefaultValues options.readOnlyKeys (jsObjectEntries defaultConfig)
      environmentConfig := []
      backendConfig := []
      userConfig := []
      dynamicConfig := []
      changedKeysBuffer := []
      config := none
      listeners := []
      backendUpdateTimeout := false
      pendingTimer := false }
  (buildConfig s0).1

/-- `getConfig(key)`: throws `CONFIGURATIONS_NOT_BUILT_YET` when `config`
is null, otherwise returns (a shallow copy of) `this.config[key]`, which
may be `undefined` for an unknown key. -/
def getConfigFn (s : ConfigState) (k : String) : Except ConfigError (Option ConfigValue) :=
  match s.config with
  | none => .error .CONFIGURATIONS_NOT_BUILT_YET
  | some cfg => .ok (lookupKey cfg k)

/-- `getConfigsForLevel(level)`: throws when `config` is null, otherwise a
shallow copy of the requested store. -/
def getConfigsForLevelFn (s : ConfigState) (level : CONFIGLEVEL) :
    Except ConfigError CMap :=
  match s.config with
  | none => .error .CONFIGURATIONS_NOT_BUILT_YET
  | some _ =>
    .ok (match level with
         | .DEFAULT => s.defaultConfig
         | .ENVIRONMENT => s.environmentConfig
         | .BACKEND => s.backendConfig
         | .USER => s.userConfig
         | .DYNAMIC => s.dynamicConfig)

/-- `setConfig(key, value)`: guard on a built config, then on the key being
known (`!conf` is the JS falsiness test on the looked-up value), then on the
read-only set (boolean `false`, no state change).  On the write path the
current effective cell is copied, `value` is stored into its `value` field,
the dead `readonly = true` assignment for DEFAULT-level cells is overwritten
by the unconditional `readonly = false`, the level becomes `DYNAMIC`, the
cell is stored into the dynamic store, the key enters the changed-keys
buffer and `buildConfig` runs.  A bare (truthy) primitive effective value
instead yields a fresh cell without a `readonly` field. -/
def setConfigFn (s : ConfigState) (k : String) (value : ConfigValue) :
    ConfigState × Except ConfigError Bool × List NotifyEvent :=
  match s.config with
  | none => (s, .error .CONFIGURATIONS_NOT_BUILT_YET, [])
  | some cfg =>
    match lookupKey cfg k with
    | none => (s, .error .UNKNOWN_CONFIG_KEY, [])
    | some conf =>
      if jsFalsy conf then (s, .error .UNKNOWN_CONFIG_KEY, [])
      else if s.options.readOnlyKeys.contains k then (s, .ok false, [])
      else
        let newCell : ConfigValue :=
          match conf with
          | .obj _ _ _ => .obj value .DYNAMIC (some false)
          | .prim _ => .obj value .DYNAMIC none
        let s1 := { s with dynamicConfig := upsert s.dynamicConfig k newCell
                           changedKeysBuffer := addKey s.changedKeysBuffer k }
        let r := buildConfig s1
        (r.1, .ok true, r.2)

/-- `deleteConfig(key)`: unconditional `delete` from the dynamic store, the
key enters the changed-keys buffer, `buildConfig` runs. -/
def deleteConfigFn (s : ConfigState) (k : String) : ConfigState × List NotifyEvent :=
  buildConfig { s with dynamicConfig := eraseKey s.dynamicConfig k
                       changedKeysBuffer := addKey s.changedKeysBuffer k }

/-- `updateChangedKeysBufferWithPartialConfig(newConf, oldConf?)`: every key
of `newConf` enters the buffer; the guarded extra add is kept verbatim even
though its condition `!(key in newConf)` can never hold while iterating the
keys of `newConf`. -/
def updateChangedKeysBufferWithPartialConfig
    (buf : List String) (newConf : CMap) (oldConf : Option CMap) : List String :=
  newConf.foldl
    (fun b p =>
      let b1 := addKey b p.1
      if oldConf.isSome && !(hasKey newConf p.1) then addKey b1 p.1 else b1)
    buf

/-- `setEnvironmentConfig(config, override?)`: replace the store wholesale
when `override === true`, otherwise spread-merge over the existing store;
the buffer update receives the supplied mapping (and, on the override path,
the old store), then `buildConfig` runs. -/
def setEnvironmentConfigFn (s : ConfigState) (config : CMap) (override : Option Bool) :
    ConfigState × List NotifyEvent :=
  let ro := s.options.readOnlyKeys
  let s1 :=
    if override = some true then
      { s with environmentConfig := buildConfigurationObjects ro config .ENVIRONMENT
               changedKeysBuffer :=
                 updateChangedKeysBufferWithPartialConfig s.changedKeysBuffer config
                   (some s.environmentConfig) }
    else
      { s with environmentConfig :=
                 spreadMerge s.environmentConfig (buildConfigurationObjects ro config .ENVIRONMENT)
               changedKeysBuffer :=
                 updateChangedKeysBufferWithPartialConfig s.changedKeysBuffer config none }
  buildConfig s1

/-- `setBackendConfig(config, override?)`: same shape as the environment
setter, writing the BACKEND store. -/
def setBackendConfigFn (s : ConfigState) (config : CMap) (override : Option Bool) :
    ConfigState × List NotifyEvent :=
  let ro := s.options.readOnlyKeys
  let s1 :=
    if override = some true then
      { s with backendConfig := buildConfigurationObjects ro config .BACKEND
               changedKeysBuffer :=
                 updateChangedKeysBufferWithPartialConfig s.changedKeysBuffer config
                   (some s.backendConfig) }
    else
      { s with backendConfig :=
                 spreadMerge s.backendConfig (buildConfigurationObjects ro config .BACKEND)
               changedKeysBuffer :=
                 updateChangedKeysBufferWithPartialConfig s.changedKeysBuffer config none }
  buildConfig s1

/-- `setUserConfig(config, override?)`: first every read-only key is dropped
from the supplied mapping (silently), then the same shape as the other two
setters, writing the USER store with the filtered mapping. -/
def setUserConfigFn (s : ConfigState) (config : CMap) (override : Option Bool) :
    ConfigState × List NotifyEvent :=
  let ro := s.options.readOnlyKeys
  let filteredConfig : CMap := config.filter (fun p => !(ro.contains p.1))
  let s1 :=
    if override = some true then
      { s with userConfig := buildConfigurationObjects ro filteredConfig .USER
               changedKeysBuffer :=
                 updateChangedKeysBufferWithPartialConfig s.changedKeysBuffer filteredConfig
                   (some s.userConfig) }
    else
      { s with userConfig :=
                 spreadMerge s.userConfig (buildConfigurationObjects ro filteredConfig .USER)
               changedKeysBuffer :=
                 updateChangedKeysBufferWithPartialConfig s.changedKeysBuffer filteredConfig none }
  buildConfig s1

/-- `subscribe(keys, callback)`: the id string is derived from the current
listener count and a random draw (`Math.round(Math.random()*10000)`), the
latter supplied here as an explicit oracle `rand`.  Returns the id the
unsubscribe closure captures. -/
def subscribeFn (s : ConfigState) (keys : List String) (rand : Nat) : ConfigState × String :=
  let id := "listener-id-" ++ toString s.listeners.length ++ "-" ++ toString rand
  ({ s with listeners := s.listeners ++ [⟨id, keys⟩] }, id)

/-- The unsubscribe closure returned by `subscribe`: filters the listener
list by the captured id. -/
def unsubscribeFn (s : ConfigState) (id : String) : ConfigState :=
  { s with listeners := s.listeners.filter (fun l => l.id ≠ id) }

/-- `runBackendAutoUpdate()`, one invocation, with the awaited fetch result
supplied as an oracle (`.error` models a rejection/throw).  Entering the
method cancels any live pending timer (without nulling the field); a failed
fetch is rethrown as `BACKEND_UPDATE_FAILED` BEFORE the `setTimeout` line,
so the mutations already performed persist and no next invocation is
scheduled; a successful non-empty fetch is applied via
`setBackendConfig(res, true)` and the next invocation is scheduled. -/
def runBackendAutoUpdateFn (s : ConfigState) (fetchResult : Except String CMap) :
    ConfigState × Option ConfigError × List NotifyEvent :=
  if !s.options.hasBackendUpdateFn then (s, some .NO_BACKEND_UPDATE_FN, [])
  else
    let s := if s.backendUpdateTimeout then { s with pendingTimer := false } else s
    match fetchResult with
    | .error e => (s, some (.BACKEND_UPDATE_FAILED e), [])
    | .ok res =>
      let r := if res.length > 0 then setBackendConfigFn s res (some true) else (s, [])
      ({ r.1 with backendUpdateTimeout := true, pendingTimer := true }, none, r.2)

/-- `startBackendAutoUpdate()`: throws without a fetch function, no-op when
the timeout field is non-null, otherwise awaits one `runBackendAutoUpdate`
invocation and resolves `true` (or rejects with that invocation's error). -/
def startBackendAutoUpdateFn (s : ConfigState) (fetchResult : Except String CMap) :
    ConfigState × Except ConfigError Bool × List NotifyEvent :=
  if !s.options.hasBackendUpdateFn then (s, .error .NO_BACKEND_UPDATE_FN, [])
  else if s.backendUpdateTimeout then (s, .ok true, [])
  else
    let r := runBackendAutoUpdateFn s fetchResult
    match r.2.1 with
    | some e => (r.1, .error e, r.2.2)
    | none => (r.1, .ok true, r.2.2)

/-- `stopBackendAutoUpdate()`: cancels the pending timer and nulls the
field when the field is non-null. -/
def stopBackendAutoUpdateFn (s : ConfigState) : ConfigState :=
  if s.backendUpdateTimeout then { s with backendUpdateTimeout := false, pendingTimer := false }
  else s

/-- `helperSetValue(original, newValue)`: overwrite the `value` field of a
metadata cell, or replace a bare scalar outright. -/
def helperSetValue (original : ConfigValue) (newValue : Scalar) : ConfigValue :=
  match original with
  | .obj _ l r => .obj (.prim newValue) l r
  | .prim _ => .prim newValue

/-- `helperGetValue(original)`: the scalar stored in a metadata cell (or
`undefined` when the stored value is not a scalar), or the bare scalar. -/
def helperGetValue (original : ConfigValue) : Option Scalar :=
  match original with
  | .obj v _ _ =>
    match v with
    | .prim s => some s
    | .obj _ _ _ => none
  | .prim s => some s

/-- One public mutating or registry call, for reachable-state reasoning. -/
inductive CfgOp where
  | setOp (k : String) (v : ConfigValue)
  | deleteOp (k : String)
  | setEnvOp (m : CMap) (override : Option Bool)
  | setBackendOp (m : CMap) (override : Option Bool)
  | setUserOp (m : CMap) (override : Option Bool)
  | subscribeOp (keys : List String) (rand : Nat)
  | unsubscribeOp (id : String)
  | runBackendOp (fetchResult : Except String CMap)
  | startBackendOp (fetchResult : Except String CMap)
  | stopBackendOp
deriving Repr

/-- The state reached after one call (return values and events dropped). -/
def applyOp (s : ConfigState) : CfgOp → ConfigState
  | .setOp k v => (setConfigFn s k v).1
  | .deleteOp k => (deleteConfigFn s k).1
  | .setEnvOp m ov => (setEnvironmentConfigFn s m ov).1
  | .setBackendOp m ov => (setBackendConfigFn s m ov).1
  | .setUserOp m ov => (setUserConfigFn s m ov).1
  | .subscribeOp keys rand => (subscribeFn s keys rand).1
  | .unsubscribeOp id => unsubscribeFn s id
  | .runBackendOp fr => (runBackendAutoUpdateFn s fr).1
  | .startBackendOp fr => (startBackendAutoUpdateFn s fr).1
  | .stopBackendOp => stopBackendAutoUpdateFn s

/-- The state reached after a sequence of calls. -/
def applyOps (s : ConfigState) (ops : List CfgOp) : ConfigState := ops.foldl applyOp s

/-- A state reachable through the public interface: constructed, then hit
with an arbitrary sequence of calls. -/
def reachState (d : DefaultInput) (o : CfgOptions) (ops : List CfgOp) : ConfigState :=
  applyOps (constructFn d o) ops

/-- What the caller observes through `getValue`/`getConfig`: the entry of
the current effective config at `k` (`none` both before the first build and
for an unknown key). -/
def effectiveLookup (s : ConfigState) (k : String) : Option ConfigValue :=
  match s.config with
  | none => none
  | some cfg => lookupKey cfg k

/-- Written from the specification text, for comparison with the code's
merge: the Value Cell of the highest-precedence store containing `k`, with
precedence DEFAULT < ENVIRONMENT < BACKEND < USER < DYNAMIC, together with
that store's level. -/
def cellFromHighestNonEmptyLevel (s : ConfigState) (k : String) :
    Option (CONFIGLEVEL × ConfigValue) :=
  match lookupKey s.dynamicConfig k with
  | some c => some (.DYNAMIC, c)
  | none =>
    match lookupKey s.userConfig k with
    | some c => some (.USER, c)
    | none =>
      match lookupKey s.backendConfig k with
      | some c => some (.BACKEND, c)
      | none =>
        match lookupKey s.environmentConfig k with
        | some c => some (.ENVIRONMENT, c)
        | none =>
          match lookupKey s.defaultConfig k with
          | some c => some (.DEFAULT, c)
          | none => none

/-- Every cell of the store is a metadata object tagged with the store's
own level (established by `buildConfigurationObjects` on every write
path). -/
def storeTagged (L : CONFIGLEVEL) (m : CMap) : Prop :=
  ∀ p ∈ m, ∃ v r, p.2 = ConfigValue.obj v L r

/-- Invariant of every reachable state: the five stores are tagged with
their own levels, the changed-keys buffer has been drained by the last
rebuild, and the effective config is exactly the merge of the current
stores. -/
def WellFormed (s : ConfigState) : Prop :=
  storeTagged .DEFAULT s.defaultConfig ∧
  storeTagged .ENVIRONMENT s.environmentConfig ∧
  storeTagged .BACKEND s.backendConfig ∧
  storeTagged .USER s.userConfig ∧
  storeTagged .DYNAMIC s.dynamicConfig ∧
  s.changedKeysBuffer = [] ∧
  s.config = some (buildConfigEff s)

deriving instance DecidableEq for Except

/-! ### Concrete instances used to ground the theorems below -/

/-- Options with all defaults (no read-only keys, no backend function). -/
def optsPlain : CfgOptions := ⟨false, false, 60000, false, []⟩

/-- Options with `readOnlyKeys: ["foo"]`. -/
def optsRO : CfgOptions := ⟨false, false, 60000, false, ["foo"]⟩

/-- Options with a backend update function and a 100ms interval. -/
def optsBE : CfgOptions := ⟨false, true, 100, false, []⟩

/-- Defaults `{foo: "a", bar: 10}`. -/
def defsFooBar : DefaultInput := .objInput [("foo", .prim (.str "a")), ("bar", .prim (.num 10))]

/-- One subscription to `["foo"]` (random draw 3, so id `listener-id-0-3`). -/
def opsSub : List CfgOp := [.subscribeOp ["foo"] 3]

/-- The registration produced by `opsSub`. -/
def lFoo : Listener := ⟨"listener-id-0-3", ["foo"]⟩

/-- Overwrite `foo` at ENVIRONMENT, then DYNAMIC, then delete the DYNAMIC
cell again — the fall-through scenario of the spec. -/
def opsFall : List CfgOp :=
  [.setEnvOp [("foo", .prim (.str "env"))] none,
   .setOp "foo" (.prim (.str "dyn")),
   .deleteOp "foo"]

/-- First (successful) backend refresh invocation: schedules the next one. -/
def runOk : ConfigState × Option ConfigError × List NotifyEvent :=
  runBackendAutoUpdateFn (constructFn (.objInput [("a", .prim (.num 1))]) optsBE)
    (.ok [("a", .prim (.num 2))])

/-- The following scheduled invocation, whose fetch rejects. -/
def runFail : ConfigState × Option ConfigError × List NotifyEvent :=
  runBackendAutoUpdateFn runOk.1 (.error "boom")

/-- Subscribe A to `["foo"]` (draw 5): id `listener-id-0-5`. -/
def s8a : ConfigState × String := subscribeFn (constructFn defsFooBar optsPlain) ["foo"] 5

/-- Subscribe B to `["bar"]` (draw 7): id `listener-id-1-7`. -/
def s8b : ConfigState × String := subscribeFn s8a.1 ["bar"] 7

/-- Unsubscribe A: the list length drops back to 1. -/
def s8c : ConfigState := unsubscribeFn s8b.1 s8a.2

/-- Subscribe C to `["baz"]` (draw 7 again at length 1): id `listener-id-1-7`,
colliding with B's id. -/
def s8d : ConfigState × String := subscribeFn s8c ["baz"] 7

/-- Unsubscribe B — filtering by the shared id string. -/
def s8e : ConfigState := unsubscribeFn s8d.1 s8b.2

/-- Two distinct-id registrations sharing the key set `["foo"]`. -/
def s8w : ConfigState :=
  (subscribeFn (subscribeFn (constructFn defsFooBar optsPlain) ["foo"] 1).1 ["foo"] 2).1

/-! ### Association-list lemmas for the JS object operations -/

theorem lookupKey_mem {m : CMap} {k : String} {c : ConfigValue}
    (h : lookupKey m k = some c) : (k, c) ∈ m := by
  induction m with
  | nil => simp [lookupKey] at h
  | cons p rest ih =>
    simp only [lookupKey] at h
    cases hr : lookupKey rest k with
    | some v =>
      rw [hr] at h
      cases h
      exact List.mem_cons_of_mem _ (ih hr)
    | none =>
      rw [hr] at h
      by_cases hk : p.1 = k
      · rw [if_pos hk] at h
        injection h with h2
        have hp : p = (k, c) := by
          obtain ⟨a, b⟩ := p
          simp only [Prod.mk.injEq]
          exact ⟨hk, h2⟩
        rw [hp]
        exact List.mem_cons_self _ _
      · rw [if_neg hk] at h
        cases h

theorem hasKey_false_lookup {m : CMap} {k : String} (h : hasKey m k = false) :
    lookupKey m k = none := by
  induction m with
  | nil => rfl
  | cons p rest ih =>
    simp only [hasKey, List.any_cons, Bool.or_eq_false_iff] at h
    obtain ⟨h1, h2⟩ := h
    simp only [lookupKey, ih h2]
    rw [if_neg]
    intro hk
    simp [hk] at h1

theorem lookupKey_append_single (m : CMap) (k : String) (v : ConfigValue) (q : String) :
    lookupKey (m ++ [(k, v)]) q = if q = k then some v else lookupKey m q := by
  induction m with
  | nil =>
    by_cases hq : q = k
    · simp [lookupKey, hq]
    · have h1 : ¬ (k = q) := fun h => hq h.symm
      simp [lookupKey, hq, h1]
  | cons p rest ih =>
    simp only [List.cons_append, lookupKey, List.append_eq]
    rw [ih]
    by_cases hq : q = k
    · simp only [if_pos hq]
    · simp only [if_neg hq]

theorem lookupKey_replaceAll_ne (m : CMap) (k : String) (v : ConfigValue) (q : String)
    (hq : q ≠ k) :
    lookupKey (m.map (fun p => if p.1 = k then (k, v) else p)) q = lookupKey m q := by
  induction m with
  | nil => rfl
  | cons p rest ih =>
    simp only [List.map_cons, lookupKey, ih]
    cases hrq : lookupKey rest q with
    | some w => rfl
    | none =>
      by_cases hp : p.1 = k
      · have h1 : ¬ (k = q) := fun h => hq h.symm
        have h2 : ¬ (p.1 = q) := fun h => hq (by rw [← h, hp])
        simp [hp, h1, h2]
      · simp [hp]

theorem lookupKey_replaceAll_eq (m : CMap) (k : String) (v : ConfigValue) :
    lookupKey (m.map (fun p => if p.1 = k then (k, v) else p)) k
      = if hasKey m k then some v else none := by
  induction m with
  | nil => rfl
  | cons p rest ih =>
    simp only [List.map_cons, lookupKey]
    rw [ih]
    by_cases hr : hasKey rest k
    · simp only [hasKey] at hr
      simp [hasKey, hr]
    · simp only [hasKey] at hr
      rw [Bool.not_eq_true] at hr
      by_cases hp : p.1 = k
      · simp [hasKey, hr, hp]
      · simp [hasKey, hr, hp]

theorem lookupKey_upsert (m : CMap) (k : String) (v : ConfigValue) (q : String) :
    lookupKey (upsert m k v) q = if q = k then some v else lookupKey m q := by
  unfold upsert
  by_cases hh : hasKey m k
  · rw [if_pos hh]
    by_cases hq : q = k
    · rw [if_pos hq, hq, lookupKey_replaceAll_eq, if_pos hh]
    · rw [if_neg hq, lookupKey_replaceAll_ne m k v q hq]
  · rw [if_neg hh, lookupKey_append_single]

theorem lookupKey_spreadMerge (a b : CMap) (k : String) :
    lookupKey (spreadMerge a b) k =
      match lookupKey b k with
      | some v => some v
      | none => lookupKey a k := by
  induction b generalizing a with
  | nil => rfl
  | cons p rest ih =>
    simp only [spreadMerge, lookupKey]
    rw [ih, lookupKey_upsert]
    cases hr : lookupKey rest k with
    | some w => rfl
    | none =>
      by_cases hk : p.1 = k
      · rw [if_pos hk, if_pos hk.symm]
      · rw [if_neg hk, if_neg (fun h => hk h.symm)]

theorem lookupKey_buildConfigObjects (ro : List String) (m : CMap) (L : CONFIGLEVEL)
    (k : String) :
    lookupKey (buildConfigurationObjects ro m L) k
      = (lookupKey m k).map (buildOne ro L k) := by
  induction m with
  | nil => rfl
  | cons p rest ih =>
    simp only [buildConfigurationObjects, List.map_cons, lookupKey] at ih ⊢
    rw [ih]
    cases hr : lookupKey rest k with
    | some w => rfl
    | none =>
      by_cases hp : p.1 = k
      · subst hp
        simp
      · simp [hp]

theorem lookupKey_resetReadOnlyFlags (ro : List String) (cfg : CMap) (k : String) :
    lookupKey (resetReadOnlyFlags ro cfg) k = (lookupKey cfg k).map (roAdjust ro k) := by
  induction cfg with
  | nil => rfl
  | cons p rest ih =>
    simp only [resetReadOnlyFlags, List.map_cons, lookupKey] at ih ⊢
    rw [ih]
    cases hr : lookupKey rest k with
    | some w => rfl
    | none =>
      by_cases hp : p.1 = k
      · subst hp
        simp
      · simp [hp]

theorem lookupKey_eraseKey (m : CMap) (k q : String) :
    lookupKey (eraseKey m k) q = if q = k then none else lookupKey m q := by
  induction m with
  | nil =>
    by_cases hq : q = k <;> simp [eraseKey, lookupKey, hq]
  | cons p rest ih =>
    simp only [eraseKey] at ih ⊢
    rw [List.filter_cons]
    by_cases hp : p.1 = k
    · rw [if_neg (by simp [hp])]
      rw [ih]
      by_cases hq : q = k
      · rw [if_pos hq, if_pos hq]
      · rw [if_neg hq, if_neg hq]
        simp only [lookupKey]
        have hpq : ¬ (p.1 = q) := fun h => hq (by rw [← h, hp])
        cases lookupKey rest q <;> simp [hpq]
    · rw [if_pos (by simp [hp])]
      simp only [lookupKey]
      rw [ih]
      by_cases hq : q = k
      · rw [if_pos hq, if_pos hq]
        have hpq : ¬ (p.1 = q) := fun h => hp (by rw [h, hq])
        simp [hpq]
      · rw [if_neg hq, if_neg hq]

theorem lookupKey_filterRO (ro : List String) (m : CMap) (k : String) :
    lookupKey (m.filter (fun p => !(ro.contains p.1))) k
      = if ro.contains k then none else lookupKey m k := by
  induction m with
  | nil =>
    by_cases hk : ro.contains k <;> simp [lookupKey, hk]
  | cons p rest ih =>
    rw [List.filter_cons]
    by_cases hp : ro.contains p.1
    · rw [if_neg (by rw [hp]; simp)]
      rw [ih]
      by_cases hk : ro.contains k
      · rw [if_pos hk, if_pos hk]
      · rw [if_neg hk, if_neg hk]
        simp only [lookupKey]
        have hpq : ¬ (p.1 = k) := fun h => hk (h ▸ hp)
        cases lookupKey rest k <;> simp [hpq]
    · have hp2 : ro.contains p.1 = false := by simpa using hp
      rw [if_pos (by rw [hp2]; simp)]
      simp only [lookupKey]
      rw [ih]
      by_cases hk : ro.contains k
      · rw [if_pos hk, if_pos hk]
        have hpq : ¬ (p.1 = k) := fun h => hp (h ▸ hk)
        simp [hpq]
      · rw [if_neg hk, if_neg hk]

/-! ### The store-tagging invariant and its preservation -/

theorem storeTagged_nil (L : CONFIGLEVEL) : storeTagged L [] := by
  intro p hp
  cases hp

theorem buildOne_obj (ro : List String) (L : CONFIGLEVEL) (k : String) (v : ConfigValue) :
    ∃ a r, buildOne ro L k v = ConfigValue.obj a L r := by
  cases v with
  | prim s => exact ⟨.prim s, some (ro.contains k), rfl⟩
  | obj a l r => exact ⟨a, r, rfl⟩

theorem storeTagged_buildConfigObjects (ro : List String) (m : CMap) (L : CONFIGLEVEL) :
    storeTagged L (buildConfigurationObjects ro m L) := by
  intro p hp
  simp only [buildConfigurationObjects, List.mem_map] at hp
  obtain ⟨q, _, hq⟩ := hp
  obtain ⟨a, r, hb⟩ := buildOne_obj ro L q.1 q.2
  exact ⟨a, r, by rw [← hq, hb]⟩

theorem storeTagged_upsert {L : CONFIGLEVEL} {m : CMap} (k : String) {c : ConfigValue}
    (hm : storeTagged L m) (hc : ∃ v r, c = ConfigValue.obj v L r) :
    storeTagged L (upsert m k c) := by
  intro p hp
  unfold upsert at hp
  by_cases hh : hasKey m k
  · rw [if_pos hh] at hp
    simp only [List.mem_map] at hp
    obtain ⟨q, hq, hpq⟩ := hp
    by_cases hqk : q.1 = k
    · rw [if_pos hqk] at hpq
      obtain ⟨v, r, hvr⟩ := hc
      exact ⟨v, r, by rw [← hpq, hvr]⟩
    · rw [if_neg hqk] at hpq
      exact hpq ▸ hm q hq
  · rw [if_neg hh] at hp
    rcases List.mem_append.mp hp with hin | hin
    · exact hm p hin
    · obtain ⟨v, r, hvr⟩ := hc
      simp only [List.mem_singleton] at hin
      exact ⟨v, r, by rw [hin, hvr]⟩

theorem storeTagged_spreadMerge {L : CONFIGLEVEL} {a b : CMap}
    (ha : storeTagged L a) (hb : storeTagged L b) : storeTagged L (spreadMerge a b) := by
  induction b generalizing a with
  | nil => exact ha
  | cons p rest ih =>
    simp only [spreadMerge]
    apply ih
    · exact storeTagged_upsert p.1 ha (hb p (List.mem_cons_self _ _))
    · intro q hq
      exact hb q (List.mem_cons_of_mem _ hq)

theorem storeTagged_filter {L : CONFIGLEVEL} {m : CMap} (f : String × ConfigValue → Bool)
    (hm : storeTagged L m) : storeTagged L (m.filter f) := by
  intro p hp
  exact hm p (List.mem_of_mem_filter hp)

theorem buildConfig_fst (s : ConfigState) :
    (buildConfig s).1 = { s with config := some (buildConfigEff s), changedKeysBuffer := [] } := rfl

theorem buildConfig_snd (s : ConfigState) :
    (buildConfig s).2 = s.listeners.filterMap (listenerEvent (buildConfigEff s) s.changedKeysBuffer) := rfl

theorem wf_buildConfig (s : ConfigState)
    (h1 : storeTagged .DEFAULT s.defaultConfig)
    (h2 : storeTagged .ENVIRONMENT s.environmentConfig)
    (h3 : storeTagged .BACKEND s.backendConfig)
    (h4 : storeTagged .USER s.userConfig)
    (h5 : storeTagged .DYNAMIC s.dynamicConfig) :
    WellFormed (buildConfig s).1 := by
  rw [buildConfig_fst]
  exact ⟨h1, h2, h3, h4, h5, rfl, rfl⟩

theorem wf_constructFn (d : DefaultInput) (o : CfgOptions) : WellFormed (constructFn d o) := by
  apply wf_buildConfig
  · exact storeTagged_buildConfigObjects _ _ _
  · exact storeTagged_nil _
  · exact storeTagged_nil _
  · exact storeTagged_nil _
  · exact storeTagged_nil _

theorem wf_setConfigFn {s : ConfigState} (hwf : WellFormed s) (k : String) (v : ConfigValue) :
    WellFormed (setConfigFn s k v).1 := by
  obtain ⟨h1, h2, h3, h4, h5, hbuf, hcfg⟩ := hwf
  unfold setConfigFn
  rw [hcfg]
  simp only []
  cases hlk : lookupKey (buildConfigEff s) k with
  | none => exact ⟨h1, h2, h3, h4, h5, hbuf, hcfg⟩
  | some conf =>
    simp only []
    by_cases hf : jsFalsy conf
    · simp only [hf, if_pos rfl]
      exact ⟨h1, h2, h3, h4, h5, hbuf, hcfg⟩
    · have hf2 : jsFalsy conf = false := by simpa using hf
      simp only [hf2, Bool.false_eq_true, if_false]
      by_cases hro : s.options.readOnlyKeys.contains k
      · simp only [hro, if_pos rfl]
        exact ⟨h1, h2, h3, h4, h5, hbuf, hcfg⟩
      · have hro2 : s.options.readOnlyKeys.contains k = false := by simpa using hro
        simp only [hro2, Bool.false_eq_true, if_false]
        apply wf_buildConfig
        · exact h1
        · exact h2
        · exact h3
        · exact h4
        · apply storeTagged_upsert _ h5
          cases conf with
          | obj a l r => exact ⟨v, some false, rfl⟩
          | prim sc => exact ⟨v, none, rfl⟩

theorem wf_deleteConfigFn {s : ConfigState} (hwf : WellFormed s) (k : String) :
    WellFormed (deleteConfigFn s k).1 := by
  obtain ⟨h1, h2, h3, h4, h5, hbuf, hcfg⟩ := hwf
  apply wf_buildConfig
  · exact h1
  · exact h2
  · exact h3
  · exact h4
  · exact storeTagged_filter _ h5

theorem wf_setEnvironmentConfigFn {s : ConfigState} (hwf : WellFormed s)
    (m : CMap) (ov : Option Bool) : WellFormed (setEnvironmentConfigFn s m ov).1 := by
  obtain ⟨h1, h2, h3, h4, h5, hbuf, hcfg⟩ := hwf
  unfold setEnvironmentConfigFn
  by_cases hov : ov = some true
  · simp only [hov, if_pos rfl]
    apply wf_buildConfig
    · exact h1
    · exact storeTagged_buildConfigObjects _ _ _
    · exact h3
    · exact h4
    · exact h5
  · simp only [if_neg hov]
    apply wf_buildConfig
    · exact h1
    · exact storeTagged_spreadMerge h2 (storeTagged_buildConfigObjects _ _ _)
    · exact h3
    · exact h4
    · exact h5

theorem wf_setBackendConfigFn {s : ConfigState} (hwf : WellFormed s)
    (m : CMap) (ov : Option Bool) : WellFormed (setBackendConfigFn s m ov).1 := by
  obtain ⟨h1, h2, h3, h4, h5, hbuf, hcfg⟩ := hwf
  unfold setBackendConfigFn
  by_cases hov : ov = some true
  · simp only [hov, if_pos rfl]
    apply wf_buildConfig
    · exact h1
    · exact h2
    · exact storeTagged_buildConfigObjects _ _ _
    · exact h4
    · exact h5
  · simp only [if_neg hov]
    apply wf_buildConfig
    · exact h1
    · exact h2
    · exact storeTagged_spreadMerge h3 (storeTagged_buildConfigObjects _ _ _)
    · exact h4
    · exact h5

theorem wf_setUserConfigFn {s : ConfigState} (hwf : WellFormed s)
    (m : CMap) (ov : Option Bool) : WellFormed (setUserConfigFn s m ov).1 := by
  obtain ⟨h1, h2, h3, h4, h5, hbuf, hcfg⟩ := hwf
  unfold setUserConfigFn
  by_cases hov : ov = some true
  · simp only [hov, if_pos rfl]
    apply wf_buildConfig
    · exact h1
    · exact h2
    · exact h3
    · exact storeTagged_buildConfigObjects _ _ _
    · exact h5
  · simp only [if_neg hov]
    apply wf_buildConfig
    · exact h1
    · exact h2
    · exact h3
    · exact storeTagged_spreadMerge h4 (storeTagged_buildConfigObjects _ _ _)
    · exact h5

theorem wf_runBackendAutoUpdateFn {s : ConfigState} (hwf : WellFormed s)
    (fr : Except String CMap) : WellFormed (runBackendAutoUpdateFn s fr).1 := by
  unfold runBackendAutoUpdateFn
  by_cases hfn : s.options.hasBackendUpdateFn
  · have hfn2 : (!s.options.hasBackendUpdateFn) = false := by simp [hfn]
    simp only [hfn2, Bool.false_eq_true, if_false]
    obtain ⟨h1, h2, h3, h4, h5, hbuf, hcfg⟩ := hwf
    have hwf2 : WellFormed (if s.backendUpdateTimeout then { s with pendingTimer := false } else s) := by
      by_cases ht : s.backendUpdateTimeout
      · rw [if_pos ht]
        exact ⟨h1, h2, h3, h4, h5, hbuf, hcfg⟩
      · rw [if_neg ht]
        exact ⟨h1, h2, h3, h4, h5, hbuf, hcfg⟩
    cases fr with
    | error e => exact hwf2
    | ok res =>
      simp only []
      by_cases hres : res.length > 0
      · simp only [if_pos hres]
        obtain ⟨g1, g2, g3, g4, g5, gbuf, gcfg⟩ := wf_setBackendConfigFn hwf2 res (some true)
        exact ⟨g1, g2, g3, g4, g5, gbuf, gcfg⟩
      · simp only [if_neg hres]
        obtain ⟨g1, g2, g3, g4, g5, gbuf, gcfg⟩ := hwf2
        exact ⟨g1, g2, g3, g4, g5, gbuf, gcfg⟩
  · have hfn2 : (!s.options.hasBackendUpdateFn) = true := by simpa using hfn
    simp only [hfn2, if_pos rfl]
    exact hwf

theorem wf_startBackendAutoUpdateFn {s : ConfigState} (hwf : WellFormed s)
    (fr : Except String CMap) : WellFormed (startBackendAutoUpdateFn s fr).1 := by
  unfold startBackendAutoUpdateFn
  by_cases hfn : s.options.hasBackendUpdateFn
  · have hfn2 : (!s.options.hasBackendUpdateFn) = false := by simp [hfn]
    simp only [hfn2, Bool.false_eq_true, if_false]
    by_cases ht : s.backendUpdateTimeout
    · simp only [ht, if_pos rfl]
      exact hwf
    · have ht2 : s.backendUpdateTimeout = false := by simpa using ht
      simp only [ht2, Bool.false_eq_true, if_false]
      cases hr : (runBackendAutoUpdateFn s fr).2.1 with
      | some e =>
        simp only [hr]
        exact wf_runBackendAutoUpdateFn hwf fr
      | none =>
        simp only [hr]
        exact wf_runBackendAutoUpdateFn hwf fr
  · have hfn2 : (!s.options.hasBackendUpdateFn) = true := by simpa using hfn
    simp only [hfn2, if_pos rfl]
    exact hwf

theorem wf_applyOp {s : ConfigState} (hwf : WellFormed s) (op : CfgOp) :
    WellFormed (applyOp s op) := by
  obtain ⟨h1, h2, h3, h4, h5, hbuf, hcfg⟩ := hwf
  cases op with
  | setOp k v => exact wf_setConfigFn ⟨h1, h2, h3, h4, h5, hbuf, hcfg⟩ k v
  | deleteOp k => exact wf_deleteConfigFn ⟨h1, h2, h3, h4, h5, hbuf, hcfg⟩ k
  | setEnvOp m ov => exact wf_setEnvironmentConfigFn ⟨h1, h2, h3, h4, h5, hbuf, hcfg⟩ m ov
  | setBackendOp m ov => exact wf_setBackendConfigFn ⟨h1, h2, h3, h4, h5, hbuf, hcfg⟩ m ov
  | setUserOp m ov => exact wf_setUserConfigFn ⟨h1, h2, h3, h4, h5, hbuf, hcfg⟩ m ov
  | subscribeOp keys rand => exact ⟨h1, h2, h3, h4, h5, hbuf, hcfg⟩
  | unsubscribeOp id => exact ⟨h1, h2, h3, h4, h5, hbuf, hcfg⟩
  | runBackendOp fr => exact wf_runBackendAutoUpdateFn ⟨h1, h2, h3, h4, h5, hbuf, hcfg⟩ fr
  | startBackendOp fr => exact wf_startBackendAutoUpdateFn ⟨h1, h2, h3, h4, h5, hbuf, hcfg⟩ fr
  | stopBackendOp =>
    show WellFormed (stopBackendAutoUpdateFn s)
    unfold stopBackendAutoUpdateFn
    by_cases ht : s.backendUpdateTimeout
    · rw [if_pos ht]
      exact ⟨h1, h2, h3, h4, h5, hbuf, hcfg⟩
    · rw [if_neg ht]
      exact ⟨h1, h2, h3, h4, h5, hbuf, hcfg⟩

theorem wf_applyOps {t : ConfigState} (hwf : WellFormed t) (ops : List CfgOp) :
    WellFormed (applyOps t ops) := by
  unfold applyOps
  induction ops generalizing t with
  | nil => exact hwf
  | cons op rest ih => exact ih (wf_applyOp hwf op)

theorem wf_reachState (d : DefaultInput) (o : CfgOptions) (ops : List CfgOp) :
    WellFormed (reachState d o ops) :=
  wf_applyOps (wf_constructFn d o) ops

/-! ### The merge realizes the spec's highest-precedence rule -/

theorem effective_eq_highest (s : ConfigState)
    (h1 : storeTagged .DEFAULT s.defaultConfig)
    (h2 : storeTagged .ENVIRONMENT s.environmentConfig)
    (h3 : storeTagged .BACKEND s.backendConfig)
    (h4 : storeTagged .USER s.userConfig)
    (h5 : storeTagged .DYNAMIC s.dynamicConfig)
    (k : String) :
    lookupKey (buildConfigEff s) k
      = (cellFromHighestNonEmptyLevel s k).map
          (fun lc => roAdjust s.options.readOnlyKeys k lc.2) := by
  unfold buildConfigEff buildDefaultValues cellFromHighestNonEmptyLevel
  rw [lookupKey_resetReadOnlyFlags, lookupKey_spreadMerge, lookupKey_spreadMerge,
    lookupKey_spreadMerge, lookupKey_spreadMerge, lookupKey_buildConfigObjects,
    lookupKey_buildConfigObjects, lookupKey_buildConfigObjects, lookupKey_buildConfigObjects,
    lookupKey_buildConfigObjects]
  cases hdyn : lookupKey s.dynamicConfig k with
  | some c =>
    obtain ⟨v, r, hc⟩ := h5 (k, c) (lookupKey_mem hdyn)
    simp only at hc
    subst hc
    rfl
  | none =>
    simp only [Option.map_none']
    cases huser : lookupKey s.userConfig k with
    | some c =>
      obtain ⟨v, r, hc⟩ := h4 (k, c) (lookupKey_mem huser)
      simp only at hc
      subst hc
      rfl
    | none =>
      simp only [Option.map_none']
      cases hback : lookupKey s.backendConfig k with
      | some c =>
        obtain ⟨v, r, hc⟩ := h3 (k, c) (lookupKey_mem hback)
        simp only at hc
        subst hc
        rfl
      | none =>
        simp only [Option.map_none']
        cases henv : lookupKey s.environmentConfig k with
        | some c =>
          obtain ⟨v, r, hc⟩ := h2 (k, c) (lookupKey_mem henv)
          simp only at hc
          subst hc
          rfl
        | none =>
          simp only [Option.map_none']
          cases hdef : lookupKey s.defaultConfig k with
          | some c =>
            obtain ⟨v, r, hc⟩ := h1 (k, c) (lookupKey_mem hdef)
            simp only at hc
            subst hc
            rfl
          | none => rfl

theorem defaultConfig_setConfigFn (s : ConfigState) (k : String) (v : ConfigValue) :
    (setConfigFn s k v).1.defaultConfig = s.defaultConfig := by
  unfold setConfigFn
  repeat' split <;> try rfl

theorem defaultConfig_deleteConfigFn (s : ConfigState) (k : String) :
    (deleteConfigFn s k).1.defaultConfig = s.defaultConfig := rfl

theorem defaultConfig_setEnvironmentConfigFn (s : ConfigState) (m : CMap) (ov : Option Bool) :
    (setEnvironmentConfigFn s m ov).1.defaultConfig = s.defaultConfig := by
  unfold setEnvironmentConfigFn
  split <;> rfl

theorem defaultConfig_setBackendConfigFn (s : ConfigState) (m : CMap) (ov : Option Bool) :
    (setBackendConfigFn s m ov).1.defaultConfig = s.defaultConfig := by
  unfold setBackendConfigFn
  split <;> rfl

theorem defaultConfig_setUserConfigFn (s : ConfigState) (m : CMap) (ov : Option Bool) :
    (setUserConfigFn s m ov).1.defaultConfig = s.defaultConfig := by
  unfold setUserConfigFn
  split <;> rfl

theorem defaultConfig_runBackendAutoUpdateFn (s : ConfigState) (fr : Except String CMap) :
    (runBackendAutoUpdateFn s fr).1.defaultConfig = s.defaultConfig := by
  unfold runBackendAutoUpdateFn
  by_cases hfn : (!s.options.hasBackendUpdateFn) = true
  · rw [if_pos hfn]
  · rw [if_neg hfn]
    by_cases ht : s.backendUpdateTimeout = true
    · simp only [if_pos ht]
      cases fr with
      | error e => rfl
      | ok res =>
        by_cases hres : res.length > 0
        · simp only [if_pos hres]
          exact defaultConfig_setBackendConfigFn _ res (some true)
        · simp only [if_neg hres]
    · simp only [if_neg ht]
      cases fr with
      | error e => rfl
      | ok res =>
        by_cases hres : res.length > 0
        · simp only [if_pos hres]
          exact defaultConfig_setBackendConfigFn _ res (some true)
        · simp only [if_neg hres]

theorem defaultConfig_startBackendAutoUpdateFn (s : ConfigState) (fr : Except String CMap) :
    (startBackendAutoUpdateFn s fr).1.defaultConfig = s.defaultConfig := by
  unfold startBackendAutoUpdateFn
  by_cases hfn : (!s.options.hasBackendUpdateFn) = true
  · rw [if_pos hfn]
  · rw [if_neg hfn]
    by_cases ht : s.backendUpdateTimeout = true
    · simp only [if_pos ht]
    · simp only [if_neg ht]
      cases hr : (runBackendAutoUpdateFn s fr).2.1 with
      | some e =>
        simp only [hr]
        exact defaultConfig_runBackendAutoUpdateFn s fr
      | none =>
        simp only [hr]
        exact defaultConfig_runBackendAutoUpdateFn s fr

theorem applyOp_defaultConfig (s : ConfigState) (op : CfgOp) :
    (applyOp s op).defaultConfig = s.defaultConfig := by
  cases op with
  | setOp k v => exact defaultConfig_setConfigFn s k v
  | deleteOp k => rfl
  | setEnvOp m ov => exact defaultConfig_setEnvironmentConfigFn s m ov
  | setBackendOp m ov => exact defaultConfig_setBackendConfigFn s m ov
  | setUserOp m ov => exact defaultConfig_setUserConfigFn s m ov
  | subscribeOp keys rand => rfl
  | unsubscribeOp id => rfl
  | runBackendOp fr => exact defaultConfig_runBackendAutoUpdateFn s fr
  | startBackendOp fr => exact defaultConfig_startBackendAutoUpdateFn s fr
  | stopBackendOp =>
    show (stopBackendAutoUpdateFn s).defaultConfig = s.defaultConfig
    unfold stopBackendAutoUpdateFn
    split <;> rfl

theorem applyOps_defaultConfig (t : ConfigState) (ops : List CfgOp) :
    (applyOps t ops).defaultConfig = t.defaultConfig := by
  unfold applyOps
  induction ops generalizing t with
  | nil => rfl
  | cons op rest ih => rw [List.foldl_cons, ih, applyOp_defaultConfig]

theorem effectiveLookup_wf {s : ConfigState} (hwf : WellFormed s) (k : String) :
    effectiveLookup s k = lookupKey (buildConfigEff s) k := by
  obtain ⟨_, _, _, _, _, _, hcfg⟩ := hwf
  unfold effectiveLookup
  rw [hcfg]

theorem cellLevel_roAdjust (ro : List String) (k : String) (v : ConfigValue)
    (l : CONFIGLEVEL) (r : Option Bool) :
    cellLevel (roAdjust ro k (.obj v l r)) = some l := by
  unfold roAdjust
  split <;> rfl

theorem cellFromHighest_tagged {s : ConfigState}
    (h1 : storeTagged .DEFAULT s.defaultConfig)
    (h2 : storeTagged .ENVIRONMENT s.environmentConfig)
    (h3 : storeTagged .BACKEND s.backendConfig)
    (h4 : storeTagged .USER s.userConfig)
    (h5 : storeTagged .DYNAMIC s.dynamicConfig)
    {k : String} {L : CONFIGLEVEL} {c : ConfigValue}
    (h : cellFromHighestNonEmptyLevel s k = some (L, c)) :
    ∃ v r, c = ConfigValue.obj v L r := by
  unfold cellFromHighestNonEmptyLevel at h
  cases hdyn : lookupKey s.dynamicConfig k with
  | some c0 =>
    rw [hdyn] at h
    obtain ⟨hL, hc⟩ := Prod.mk.injEq .. ▸ (Option.some.injEq .. ▸ h)
    obtain ⟨v, r, hv⟩ := h5 (k, c0) (lookupKey_mem hdyn)
    exact ⟨v, r, by simp only at hv; rw [← hc, hv, ← hL]⟩
  | none =>
    rw [hdyn] at h
    cases huser : lookupKey s.userConfig k with
    | some c0 =>
      rw [huser] at h
      obtain ⟨hL, hc⟩ := Prod.mk.injEq .. ▸ (Option.some.injEq .. ▸ h)
      obtain ⟨v, r, hv⟩ := h4 (k, c0) (lookupKey_mem huser)
      exact ⟨v, r, by simp only at hv; rw [← hc, hv, ← hL]⟩
    | none =>
      rw [huser] at h
      cases hback : lookupKey s.backendConfig k with
      | some c0 =>
        rw [hback] at h
        obtain ⟨hL, hc⟩ := Prod.mk.injEq .. ▸ (Option.some.injEq .. ▸ h)
        obtain ⟨v, r, hv⟩ := h3 (k, c0) (lookupKey_mem hback)
        exact ⟨v, r, by simp only at hv; rw [← hc, hv, ← hL]⟩
      | none =>
        rw [hback] at h
        cases henv : lookupKey s.environmentConfig k with
        | some c0 =>
          rw [henv] at h
          obtain ⟨hL, hc⟩ := Prod.mk.injEq .. ▸ (Option.some.injEq .. ▸ h)
          obtain ⟨v, r, hv⟩ := h2 (k, c0) (lookupKey_mem henv)
          exact ⟨v, r, by simp only at hv; rw [← hc, hv, ← hL]⟩
        | none =>
          rw [henv] at h
          cases hdef : lookupKey s.defaultConfig k with
          | some c0 =>
            rw [hdef] at h
            obtain ⟨hL, hc⟩ := Prod.mk.injEq .. ▸ (Option.some.injEq .. ▸ h)
            obtain ⟨v, r, hv⟩ := h1 (k, c0) (lookupKey_mem hdef)
            exact ⟨v, r, by simp only at hv; rw [← hc, hv, ← hL]⟩
          | none =>
            rw [hdef] at h
            cases h

/-! ### Claim theorems -/

/-- C1: after construction and after every sequence of mutating calls, the
effective config holds, for every key, the Value Cell of the
highest-precedence store containing that key (modulo the read-only flag
re-application performed by the rebuild itself), its level is that store's
level, and the DEFAULT store — the irremovable floor — is never changed by
any operation.  Removal fall-through is this statement instantiated at an
operation list ending in `deleteConfig`. -/
theorem c1_precedence_invariant (d : DefaultInput) (o : CfgOptions) (ops : List CfgOp) :
    (∀ k, effectiveLookup (reachState d o ops) k
        = (cellFromHighestNonEmptyLevel (reachState d o ops) k).map
            (fun lc => roAdjust (reachState d o ops).options.readOnlyKeys k lc.2))
    ∧ (∀ k L c, cellFromHighestNonEmptyLevel (reachState d o ops) k = some (L, c) →
        (effectiveLookup (reachState d o ops) k).bind cellLevel = some L)
    ∧ (reachState d o ops).defaultConfig = (constructFn d o).defaultConfig := by
  have hwf := wf_reachState d o ops
  obtain ⟨h1, h2, h3, h4, h5, hbuf, hcfg⟩ := hwf
  refine ⟨?_, ?_, ?_⟩
  · intro k
    rw [effectiveLookup_wf ⟨h1, h2, h3, h4, h5, hbuf, hcfg⟩ k]
    exact effective_eq_highest _ h1 h2 h3 h4 h5 k
  · intro k L c hc
    rw [effectiveLookup_wf ⟨h1, h2, h3, h4, h5, hbuf, hcfg⟩ k,
      effective_eq_highest _ h1 h2 h3 h4 h5 k, hc]
    obtain ⟨v, r, hv⟩ := cellFromHighest_tagged h1 h2 h3 h4 h5 hc
    show cellLevel (roAdjust (reachState d o ops).options.readOnlyKeys k c) = some L
    rw [hv]
    exact cellLevel_roAdjust _ _ _ _ _
  · exact applyOps_defaultConfig _ ops

/-- C1 witness: defaults set `foo`, an ENVIRONMENT write overrides it, a
DYNAMIC write overrides that, and deleting the DYNAMIC cell makes `foo`
fall back to the ENVIRONMENT cell, whose level the effective entry
reports. -/
theorem c1_precedence_invariant_witness :
    cellFromHighestNonEmptyLevel (reachState defsFooBar optsPlain opsFall) "foo"
      = some (.ENVIRONMENT, ConfigValue.obj (.prim (.str "env")) .ENVIRONMENT (some false))
    ∧ (effectiveLookup (reachState defsFooBar optsPlain opsFall) "foo").bind cellLevel
      = some .ENVIRONMENT :=
  ⟨by decide,
   (c1_precedence_invariant defsFooBar optsPlain opsFall).2.1 "foo" .ENVIRONMENT
     (ConfigValue.obj (.prim (.str "env")) .ENVIRONMENT (some false)) (by decide)⟩

/-- C9: on every reachable instance the effective config is non-null — the
constructor builds it and no operation resets it — so the
`CONFIGURATIONS_NOT_BUILT_YET` guards of `getConfig`, `setConfig` and
`getConfigsForLevel` can never fire. -/
theorem c9_config_always_built (d : DefaultInput) (o : CfgOptions) (ops : List CfgOp) :
    (reachState d o ops).config.isSome = true
    ∧ (∀ k, getConfigFn (reachState d o ops) k ≠ .error .CONFIGURATIONS_NOT_BUILT_YET)
    ∧ (∀ L, getConfigsForLevelFn (reachState d o ops) L ≠ .error .CONFIGURATIONS_NOT_BUILT_YET)
    ∧ (∀ k v, (setConfigFn (reachState d o ops) k v).2.1
        ≠ .error .CONFIGURATIONS_NOT_BUILT_YET) := by
  obtain ⟨h1, h2, h3, h4, h5, hbuf, hcfg⟩ := wf_reachState d o ops
  refine ⟨by rw [hcfg]; rfl, ?_, ?_, ?_⟩
  · intro k
    unfold getConfigFn
    rw [hcfg]
    intro h
    cases h
  · intro L
    unfold getConfigsForLevelFn
    rw [hcfg]
    intro h
    cases h
  · intro k v
    unfold setConfigFn
    rw [hcfg]
    simp only []
    cases hlk : lookupKey (buildConfigEff (reachState d o ops)) k with
    | none =>
      intro h
      cases h
    | some conf =>
      simp only []
      by_cases hf : jsFalsy conf
      · simp only [hf, if_pos rfl]
        intro h
        cases h
      · have hf2 : jsFalsy conf = false := by simpa using hf
        simp only [hf2, Bool.false_eq_true, if_false]
        by_cases hro : (reachState d o ops).options.readOnlyKeys.contains k
        · simp only [hro, if_pos rfl]
          intro h
          cases h
        · have hro2 : (reachState d o ops).options.readOnlyKeys.contains k = false := by
            simpa using hro
          simp only [hro2, Bool.false_eq_true, if_false]
          intro h
          cases h

/-- C9 witness: the guards do not fire on a freshly constructed instance. -/
theorem c9_config_always_built_witness :
    getConfigFn (reachState defsFooBar optsPlain []) "foo"
      ≠ .error .CONFIGURATIONS_NOT_BUILT_YET
    ∧ (setConfigFn (reachState defsFooBar optsPlain []) "foo" (.prim (.num 5))).2.1
      ≠ .error .CONFIGURATIONS_NOT_BUILT_YET :=
  ⟨(c9_config_always_built defsFooBar optsPlain []).2.1 "foo",
   (c9_config_always_built defsFooBar optsPlain []).2.2.2 "foo" (.prim (.num 5))⟩

theorem effectiveCell_obj {s : ConfigState} (hwf : WellFormed s) {k : String}
    {c : ConfigValue} (h : effectiveLookup s k = some c) :
    ∃ v l r, c = ConfigValue.obj v l r := by
  obtain ⟨h1, h2, h3, h4, h5, hbuf, hcfg⟩ := hwf
  rw [effectiveLookup_wf ⟨h1, h2, h3, h4, h5, hbuf, hcfg⟩ k,
    effective_eq_highest, Option.map_eq_some'] at h <;> try assumption
  obtain ⟨⟨L, c0⟩, hhi, hadj⟩ := h
  obtain ⟨v, r, hv⟩ := cellFromHighest_tagged h1 h2 h3 h4 h5 hhi
  rw [← hadj]
  simp only [hv]
  unfold roAdjust
  split
  · exact ⟨v, L, some true, rfl⟩
  · exact ⟨v, L, r, rfl⟩

/-- C3: on a reachable instance, `setConfig` of a key that is in the
read-only set (and known to the configuration, as the TypeScript types
guarantee) returns `false` without throwing and leaves the whole state —
all five stores, the effective mapping, the pending changed-keys buffer,
the listener list — untouched, and emits no notification. -/
theorem c3_readonly_setconfig_rejected (d : DefaultInput) (o : CfgOptions) (ops : List CfgOp)
    (k : String) (v : ConfigValue)
    (hro : (reachState d o ops).options.readOnlyKeys.contains k = true)
    (hk : (effectiveLookup (reachState d o ops) k).isSome = true) :
    setConfigFn (reachState d o ops) k v = (reachState d o ops, .ok false, []) := by
  have hwf := wf_reachState d o ops
  obtain ⟨h1, h2, h3, h4, h5, hbuf, hcfg⟩ := hwf
  rw [Option.isSome_iff_exists] at hk
  obtain ⟨c, hc⟩ := hk
  obtain ⟨w, l, r, hobj⟩ := effectiveCell_obj ⟨h1, h2, h3, h4, h5, hbuf, hcfg⟩ hc
  unfold setConfigFn
  rw [hcfg]
  simp only []
  have hc2 : lookupKey (buildConfigEff (reachState d o ops)) k = some c := by
    rw [← effectiveLookup_wf ⟨h1, h2, h3, h4, h5, hbuf, hcfg⟩ k]
    exact hc
  rw [hc2]
  simp only []
  have hfalsy : jsFalsy c = false := by
    rw [hobj]
    rfl
  simp only [hfalsy, Bool.false_eq_true, if_false, hro, if_pos rfl]
  rw [if_pos trivial]

/-- C3 witness: with `readOnlyKeys: ["foo"]` and `foo` present in the
defaults, `setConfig("foo", 9)` returns `false` and changes nothing. -/
theorem c3_readonly_setconfig_rejected_witness :
    setConfigFn (reachState (.objInput [("foo", .prim (.num 1)), ("bar", .prim (.num 2))])
        optsRO []) "foo" (.prim (.num 9))
      = (reachState (.objInput [("foo", .prim (.num 1)), ("bar", .prim (.num 2))]) optsRO [],
         .ok false, []) :=
  c3_readonly_setconfig_rejected (.objInput [("foo", .prim (.num 1)), ("bar", .prim (.num 2))])
    optsRO [] "foo" (.prim (.num 9)) (by decide) (by decide)

theorem userConfig_setUserConfigFn (s : ConfigState) (m : CMap) (ov : Option Bool) :
    (setUserConfigFn s m ov).1.userConfig =
      if ov = some true then
        buildConfigurationObjects s.options.readOnlyKeys
          (m.filter (fun p => !(s.options.readOnlyKeys.contains p.1))) .USER
      else
        spreadMerge s.userConfig
          (buildConfigurationObjects s.options.readOnlyKeys
            (m.filter (fun p => !(s.options.readOnlyKeys.contains p.1))) .USER) := by
  unfold setUserConfigFn
  split <;> rfl

theorem envConfig_setEnvironmentConfigFn (s : ConfigState) (m : CMap) (ov : Option Bool) :
    (setEnvironmentConfigFn s m ov).1.environmentConfig =
      if ov = some true then
        buildConfigurationObjects s.options.readOnlyKeys m .ENVIRONMENT
      else
        spreadMerge s.environmentConfig
          (buildConfigurationObjects s.options.readOnlyKeys m .ENVIRONMENT) := by
  unfold setEnvironmentConfigFn
  split <;> rfl

theorem backendConfig_setBackendConfigFn (s : ConfigState) (m : CMap) (ov : Option Bool) :
    (setBackendConfigFn s m ov).1.backendConfig =
      if ov = some true then
        buildConfigurationObjects s.options.readOnlyKeys m .BACKEND
      else
        spreadMerge s.backendConfig
          (buildConfigurationObjects s.options.readOnlyKeys m .BACKEND) := by
  unfold setBackendConfigFn
  split <;> rfl

/-- C4: `setUserConfig` silently drops every read-only key of the supplied
mapping before merging — a read-only key's USER-store entry is whatever it
was before (merge path) or absent (override path), never the supplied value
— while the remaining supplied keys are written; `setEnvironmentConfig` and
`setBackendConfig` never filter: every supplied key, read-only or not, is
written into their store wrapped at that store's level. -/
theorem c4_readonly_filtering (s : ConfigState) (m : CMap) (ov : Option Bool) :
    (∀ k, s.options.readOnlyKeys.contains k = true →
      lookupKey ((setUserConfigFn s m ov).1.userConfig) k
        = if ov = some true then none else lookupKey s.userConfig k)
    ∧ (∀ k v, s.options.readOnlyKeys.contains k = false → lookupKey m k = some v →
      lookupKey ((setUserConfigFn s m ov).1.userConfig) k
        = some (buildOne s.options.readOnlyKeys .USER k v))
    ∧ (∀ k v, lookupKey m k = some v →
      lookupKey ((setEnvironmentConfigFn s m ov).1.environmentConfig) k
        = some (buildOne s.options.readOnlyKeys .ENVIRONMENT k v))
    ∧ (∀ k v, lookupKey m k = some v →
      lookupKey ((setBackendConfigFn s m ov).1.backendConfig) k
        = some (buildOne s.options.readOnlyKeys .BACKEND k v)) := by
  refine ⟨?_, ?_, ?_, ?_⟩
  · intro k hro
    rw [userConfig_setUserConfigFn]
    by_cases hov : ov = some true
    · rw [if_pos hov, if_pos hov, lookupKey_buildConfigObjects, lookupKey_filterRO,
        if_pos hro]
      rfl
    · rw [if_neg hov, if_neg hov, lookupKey_spreadMerge, lookupKey_buildConfigObjects,
        lookupKey_filterRO, if_pos hro]
      rfl
  · intro k v hro hm
    rw [userConfig_setUserConfigFn]
    by_cases hov : ov = some true
    · rw [if_pos hov, lookupKey_buildConfigObjects, lookupKey_filterRO,
        if_neg (by rw [hro]; simp), hm]
      rfl
    · rw [if_neg hov, lookupKey_spreadMerge, lookupKey_buildConfigObjects,
        lookupKey_filterRO, if_neg (by rw [hro]; simp), hm]
      rfl
  · intro k v hm
    rw [envConfig_setEnvironmentConfigFn]
    by_cases hov : ov = some true
    · rw [if_pos hov, lookupKey_buildConfigObjects, hm]
      rfl
    · rw [if_neg hov, lookupKey_spreadMerge, lookupKey_buildConfigObjects, hm]
      rfl
  · intro k v hm
    rw [backendConfig_setBackendConfigFn]
    by_cases hov : ov = some true
    · rw [if_pos hov, lookupKey_buildConfigObjects, hm]
      rfl
    · rw [if_neg hov, lookupKey_spreadMerge, lookupKey_buildConfigObjects, hm]
      rfl

/-- C4 witness: with `readOnlyKeys: ["foo"]`, `setUserConfig({foo:9, bar:8})`
leaves `foo` out of the USER store but applies `bar`, while
`setEnvironmentConfig({foo:9})` writes `foo` into the ENVIRONMENT store. -/
theorem c4_readonly_filtering_witness :
    lookupKey ((setUserConfigFn (reachState (.objInput [("foo", .prim (.num 1))]) optsRO [])
        [("foo", .prim (.num 9)), ("bar", .prim (.num 8))] none).1.userConfig) "foo" = none
    ∧ lookupKey ((setUserConfigFn (reachState (.objInput [("foo", .prim (.num 1))]) optsRO [])
        [("foo", .prim (.num 9)), ("bar", .prim (.num 8))] none).1.userConfig) "bar"
      = some (.obj (.prim (.num 8)) .USER (some false))
    ∧ lookupKey ((setEnvironmentConfigFn
        (reachState (.objInput [("foo", .prim (.num 1))]) optsRO [])
        [("foo", .prim (.num 9)), ("bar", .prim (.num 8))] none).1.environmentConfig) "foo"
      = some (.obj (.prim (.num 9)) .ENVIRONMENT (some true)) := by
  refine ⟨?_, ?_, ?_⟩
  · have h := (c4_readonly_filtering (reachState (.objInput [("foo", .prim (.num 1))]) optsRO [])
      [("foo", .prim (.num 9)), ("bar", .prim (.num 8))] none).1 "foo" (by decide)
    rw [h]
    decide
  · have h := (c4_readonly_filtering (reachState (.objInput [("foo", .prim (.num 1))]) optsRO [])
      [("foo", .prim (.num 9)), ("bar", .prim (.num 8))] none).2.1 "bar" (.prim (.num 8))
      (by decide) (by decide)
    rw [h]
    decide
  · have h := (c4_readonly_filtering (reachState (.objInput [("foo", .prim (.num 1))]) optsRO [])
      [("foo", .prim (.num 9)), ("bar", .prim (.num 8))] none).2.2.1 "foo" (.prim (.num 9))
      (by decide)
    rw [h]
    decide

/-- C10: the static helpers round-trip — writing a scalar with
`helperSetValue` into any `ConfigValue` (bare scalar or metadata cell) and
reading it back with `helperGetValue` returns that scalar. -/
theorem c10_helper_roundtrip (original : ConfigValue) (v : Scalar) :
    helperGetValue (helperSetValue original v) = some v := by
  cases original <;> rfl

/-- C7 counterexample: constructing with the non-object default `42`
produces an instance (with a built, empty effective config) — no
`DefaultConfigInvalid` error is raised, contradicting the claim that every
non-object input fails construction. -/
theorem c7_counterexample :
    (constructFn (.numInput 42) optsPlain).config = some []
    ∧ (constructFn (.numInput 42) optsPlain).defaultConfig = [] := by
  exact ⟨rfl, rfl⟩

/-- C7 amended: construction never validates `defaultValues` — for every
input, object or not, the constructor completes and yields an instance
whose effective config is built; the `DEFAULTCONFIG_MUST_BE_OBJECT` code is
declared in `ERRORCODES` but thrown nowhere. -/
theorem c7_amended_no_validation (d : DefaultInput) (o : CfgOptions) :
    (constructFn d o).config.isSome = true := by
  obtain ⟨_, _, _, _, _, _, hcfg⟩ := wf_constructFn d o
  rw [hcfg]
  rfl

/-- C2 counterexample: after a successful first invocation (`runOk`) the
next invocation is scheduled; when that scheduled invocation's fetch
rejects (`runFail`), the wrapped error is thrown BEFORE the `setTimeout`
call, so no next invocation is scheduled (`pendingTimer = false`) — the
loop does not resume — while the timeout field still holds the stale
cleared handle. -/
theorem c2_counterexample :
    runOk.1.pendingTimer = true
    ∧ runFail.2.1 = some (.BACKEND_UPDATE_FAILED "boom")
    ∧ runFail.1.pendingTimer = false
    ∧ runFail.1.backendUpdateTimeout = true := by
  exact ⟨rfl, rfl, rfl, rfl⟩

/-- C2 amended: when the fetch of a scheduled invocation (a live timeout
handle exists) throws or rejects, `runBackendAutoUpdate` raises
`BACKEND_UPDATE_FAILED` before reaching the scheduling statement: the
stores, the effective config and the listener list are untouched, no
notification fires, no next interval is scheduled — the refresh loop halts
— and the timeout field keeps its stale handle (so a later
`startBackendAutoUpdate` would return `true` without restarting). -/
theorem c2_amended_failure_stops_loop (s : ConfigState) (e : String)
    (hfn : s.options.hasBackendUpdateFn = true)
    (ht : s.backendUpdateTimeout = true) :
    runBackendAutoUpdateFn s (.error e)
      = ({ s with pendingTimer := false }, some (.BACKEND_UPDATE_FAILED e), []) := by
  unfold runBackendAutoUpdateFn
  simp only [hfn, Bool.not_true, Bool.false_eq_true, if_false, ht, if_pos rfl]
  rw [if_pos trivial]

/-- C2 amended witness: the concrete failing scheduled invocation. -/
theorem c2_amended_failure_stops_loop_witness :
    runBackendAutoUpdateFn runOk.1 (.error "boom")
      = ({ runOk.1 with pendingTimer := false },
         some (.BACKEND_UPDATE_FAILED "boom"), []) :=
  c2_amended_failure_stops_loop runOk.1 "boom" (by decide) (by decide)

theorem relevantChanges_single_aux (cfg : CMap) (k : String) (keys : List String) :
    keys.foldl
        (fun acc k2 => if List.contains [k] k2 then setProp acc k2 (lookupKey cfg k2) else acc)
        []
      = (if keys.contains k then [(k, lookupKey cfg k)] else [])
    ∧ keys.foldl
        (fun acc k2 => if List.contains [k] k2 then setProp acc k2 (lookupKey cfg k2) else acc)
        [(k, lookupKey cfg k)]
      = [(k, lookupKey cfg k)] := by
  induction keys with
  | nil => exact ⟨rfl, rfl⟩
  | cons k2 rest ih =>
    constructor
    · rw [List.foldl_cons]
      by_cases hk2 : k2 = k
      · subst hk2
        have hbuf : List.contains [k2] k2 = true := by simp
        rw [if_pos hbuf]
        have hstep : setProp [] k2 (lookupKey cfg k2) = [(k2, lookupKey cfg k2)] := rfl
        rw [hstep, ih.2]
        have : (k2 :: rest).contains k2 = true := by simp
        rw [if_pos this]
      · have hbuf : List.contains [k] k2 = false := by simp [hk2]
        rw [if_neg (by rw [hbuf]; simp)]
        rw [ih.1]
        have hcc : (k2 :: rest).contains k = rest.contains k := by
          simp [List.contains_cons]
          intro h
          exact absurd h.symm hk2
        rw [hcc]
    · rw [List.foldl_cons]
      by_cases hk2 : k2 = k
      · subst hk2
        have hbuf : List.contains [k2] k2 = true := by simp
        rw [if_pos hbuf]
        have hstep : setProp [(k2, lookupKey cfg k2)] k2 (lookupKey cfg k2)
            = [(k2, lookupKey cfg k2)] := by
          unfold setProp
          rw [if_pos (by simp)]
          simp
        rw [hstep, ih.2]
      · have hbuf : List.contains [k] k2 = false := by simp [hk2]
        rw [if_neg (by rw [hbuf]; simp)]
        exact ih.2

theorem relevantChanges_single (cfg : CMap) (k : String) (keys : List String) :
    relevantChanges cfg [k] keys
      = if keys.contains k then [(k, lookupKey cfg k)] else [] :=
  (relevantChanges_single_aux cfg k keys).1

theorem listenerEvent_single (cfg : CMap) (k : String) (l : Listener) (hne : l.keys ≠ []) :
    listenerEvent cfg [k] l
      = if l.keys.contains k then some ⟨l.id, [(k, lookupKey cfg k)]⟩ else none := by
  unfold listenerEvent
  rw [if_neg hne]
  simp only [relevantChanges_single]
  by_cases hc : l.keys.contains k
  · rw [if_pos hc, if_pos hc]
    rfl
  · rw [if_neg hc, if_neg hc]
    rfl

theorem listenerEvent_id (cfg : CMap) (buf : List String) (l : Listener) (e : NotifyEvent)
    (h : listenerEvent cfg buf l = some e) : e.listenerId = l.id := by
  unfold listenerEvent at h
  by_cases hk : l.keys = []
  · rw [if_pos hk] at h
    injection h with h2
    rw [← h2]
  · rw [if_neg hk] at h
    simp only [] at h
    split at h
    · cases h
    · injection h with h2
      rw [← h2]

theorem filterMap_event_id_mem (cfg : CMap) (buf : List String) (ls : List Listener)
    (e : NotifyEvent) (h : e ∈ ls.filterMap (listenerEvent cfg buf)) :
    e.listenerId ∈ ls.map Listener.id := by
  rw [List.mem_filterMap] at h
  obtain ⟨l', hl', hev⟩ := h
  rw [listenerEvent_id _ _ _ _ hev]
  exact List.mem_map_of_mem _ hl'

theorem events_notmem_zero (cfg : CMap) (buf : List String) (ls : List Listener) (i : String)
    (h : i ∉ ls.map Listener.id) :
    (ls.filterMap (listenerEvent cfg buf)).countP (fun e => e.listenerId = i) = 0 := by
  rw [List.countP_eq_zero]
  intro e he
  simp only [decide_eq_true_eq]
  intro heq
  exact h (heq ▸ filterMap_event_id_mem cfg buf ls e he)

theorem filterMap_event_count (cfg : CMap) (buf : List String) (ls : List Listener)
    (l : Listener) (hl : l ∈ ls) (hnd : (ls.map Listener.id).Nodup) :
    (ls.filterMap (listenerEvent cfg buf)).countP (fun e => e.listenerId = l.id)
      = if (listenerEvent cfg buf l).isSome then 1 else 0 := by
  induction ls with
  | nil => cases hl
  | cons a rest ih =>
    rw [List.map_cons, List.nodup_cons] at hnd
    obtain ⟨hna, hndr⟩ := hnd
    rw [List.filterMap_cons]
    rcases List.mem_cons.mp hl with heq | hmem
    · subst heq
      cases hev : listenerEvent cfg buf l with
      | none =>
        simp only [hev, Option.isSome_none, Bool.false_eq_true, if_false]
        exact events_notmem_zero cfg buf rest l.id hna
      | some e =>
        rw [List.countP_cons]
        have hid : e.listenerId = l.id := listenerEvent_id _ _ _ _ hev
        rw [events_notmem_zero cfg buf rest l.id hna]
        simp [hid, hev]
    · have hlid : l.id ∈ rest.map Listener.id := List.mem_map_of_mem _ hmem
      have hne2 : ¬ (a.id = l.id) := fun h => hna (h ▸ hlid)
      cases hev : listenerEvent cfg buf a with
      | none => exact ih hmem hndr
      | some e =>
        rw [List.countP_cons]
        have hid : e.listenerId = a.id := listenerEvent_id _ _ _ _ hev
        rw [ih hmem hndr]
        simp [hid, hne2]

theorem filterMap_event_mem (cfg : CMap) (buf : List String) (ls : List Listener)
    (l : Listener) (hl : l ∈ ls) (hnd : (ls.map Listener.id).Nodup)
    (e : NotifyEvent) (he : e ∈ ls.filterMap (listenerEvent cfg buf))
    (hid : e.listenerId = l.id) :
    listenerEvent cfg buf l = some e := by
  rw [List.mem_filterMap] at he
  obtain ⟨l', hl', hev⟩ := he
  have hsame : l'.id = l.id := by
    rw [← listenerEvent_id _ _ _ _ hev, hid]
  have hll : l' = l := List.inj_on_of_nodup_map hnd hl' hl hsame
  rw [← hll]
  exact hev

theorem setConfigFn_write {s : ConfigState} (hwf : WellFormed s) {k : String}
    {c w : ConfigValue} {l0 : CONFIGLEVEL} {r0 : Option Bool}
    (hc : effectiveLookup s k = some c) (hobj : c = ConfigValue.obj w l0 r0)
    (hro : s.options.readOnlyKeys.contains k = false) (v : ConfigValue) :
    setConfigFn s k v =
      ((buildConfig { s with
          dynamicConfig := upsert s.dynamicConfig k (ConfigValue.obj v .DYNAMIC (some false)),
          changedKeysBuffer := addKey s.changedKeysBuffer k }).1,
       .ok true,
       (buildConfig { s with
          dynamicConfig := upsert s.dynamicConfig k (ConfigValue.obj v .DYNAMIC (some false)),
          changedKeysBuffer := addKey s.changedKeysBuffer k }).2) := by
  obtain ⟨h1, h2, h3, h4, h5, hbuf, hcfg⟩ := hwf
  unfold setConfigFn
  rw [hcfg]
  simp only []
  have hc2 : lookupKey (buildConfigEff s) k = some c := by
    rw [← effectiveLookup_wf ⟨h1, h2, h3, h4, h5, hbuf, hcfg⟩ k]
    exact hc
  rw [hc2]
  simp only []
  have hfalsy : jsFalsy c = false := by
    rw [hobj]
    rfl
  simp only [hfalsy, Bool.false_eq_true, if_false, hro]
  rw [hobj]

theorem newEffective_at_key {s : ConfigState} (hwf : WellFormed s) (k : String)
    (v : ConfigValue) (hro : s.options.readOnlyKeys.contains k = false) :
    lookupKey (buildConfigEff { s with
        dynamicConfig := upsert s.dynamicConfig k (ConfigValue.obj v .DYNAMIC (some false)),
        changedKeysBuffer := addKey s.changedKeysBuffer k }) k
      = some (ConfigValue.obj v .DYNAMIC (some false)) := by
  obtain ⟨h1, h2, h3, h4, h5, hbuf, hcfg⟩ := hwf
  have h5' : storeTagged .DYNAMIC
      (upsert s.dynamicConfig k (ConfigValue.obj v .DYNAMIC (some false))) :=
    storeTagged_upsert k h5 ⟨v, some false, rfl⟩
  rw [effective_eq_highest { s with
      dynamicConfig := upsert s.dynamicConfig k (ConfigValue.obj v .DYNAMIC (some false)),
      changedKeysBuffer := addKey s.changedKeysBuffer k } h1 h2 h3 h4 h5' k]
  unfold cellFromHighestNonEmptyLevel
  have hdyn : lookupKey (upsert s.dynamicConfig k (ConfigValue.obj v .DYNAMIC (some false))) k
      = some (ConfigValue.obj v .DYNAMIC (some false)) := by
    rw [lookupKey_upsert, if_pos rfl]
  simp only []
  rw [hdyn]
  simp only [Option.map]
  unfold roAdjust
  rw [hro]
  simp

/-- C5: on a reachable instance with drained buffer, after `setConfig(k, v)`
a registration with a non-empty key list (ids being unique) is notified
exactly once when its key list contains `k` and not at all otherwise, and
any event it receives carries exactly the payload `{k: newCell}` where
`newCell` is the freshly written DYNAMIC cell — never an empty payload. -/
theorem c5_subscription_filtering (d : DefaultInput) (o : CfgOptions) (ops : List CfgOp)
    (k : String) (v : ConfigValue) (l : Listener)
    (hl : l ∈ (reachState d o ops).listeners) (hne : l.keys ≠ [])
    (hnd : ((reachState d o ops).listeners.map Listener.id).Nodup)
    (hk : (effectiveLookup (reachState d o ops) k).isSome = true)
    (hro : (reachState d o ops).options.readOnlyKeys.contains k = false) :
    ((setConfigFn (reachState d o ops) k v).2.2.countP (fun e => e.listenerId = l.id))
      = (if l.keys.contains k then 1 else 0)
    ∧ ∀ e, e ∈ (setConfigFn (reachState d o ops) k v).2.2 → e.listenerId = l.id →
        l.keys.contains k = true
        ∧ e.payload = [(k, some (ConfigValue.obj v .DYNAMIC (some false)))] := by
  have hwf := wf_reachState d o ops
  obtain ⟨h1, h2, h3, h4, h5, hbuf, hcfg⟩ := hwf
  rw [Option.isSome_iff_exists] at hk
  obtain ⟨c, hc⟩ := hk
  obtain ⟨w, l0, r0, hobj⟩ := effectiveCell_obj ⟨h1, h2, h3, h4, h5, hbuf, hcfg⟩ hc
  rw [setConfigFn_write ⟨h1, h2, h3, h4, h5, hbuf, hcfg⟩ hc hobj hro v]
  simp only [buildConfig_snd]
  have haddKey : addKey (reachState d o ops).changedKeysBuffer k = [k] := by
    rw [hbuf]
    rfl
  simp only [haddKey]
  have hnew := newEffective_at_key ⟨h1, h2, h3, h4, h5, hbuf, hcfg⟩ k v hro
  rw [haddKey] at hnew
  constructor
  · rw [filterMap_event_count _ _ _ l hl hnd, listenerEvent_single _ _ _ hne]
    by_cases hck : l.keys.contains k
    · simp [hck]
    · simp [hck]
  · intro e he hid
    have hev := filterMap_event_mem _ _ _ l hl hnd e he hid
    rw [listenerEvent_single _ _ _ hne] at hev
    by_cases hck : l.keys.contains k
    · rw [if_pos hck] at hev
      injection hev with h2
      refine ⟨hck, ?_⟩
      rw [← h2]
      simp only [hnew]
    · rw [if_neg hck] at hev
      cases hev

/-- C5 witness: after subscribing to `["foo"]`, `setConfig("bar", 9)` does
not invoke the callback and `setConfig("foo", 9)` invokes it exactly once
with `{foo: <the new DYNAMIC cell>}`. -/
theorem c5_subscription_filtering_witness :
    ((setConfigFn (reachState defsFooBar optsPlain opsSub) "foo" (.prim (.num 9))).2.2.countP
        (fun e => e.listenerId = lFoo.id)) = 1
    ∧ ((setConfigFn (reachState defsFooBar optsPlain opsSub) "bar" (.prim (.num 9))).2.2.countP
        (fun e => e.listenerId = lFoo.id)) = 0 := by
  constructor
  · have h := (c5_subscription_filtering defsFooBar optsPlain opsSub "foo" (.prim (.num 9))
      lFoo (by decide) (by decide) (by decide) (by decide) (by decide)).1
    rw [h]
    decide
  · have h := (c5_subscription_filtering defsFooBar optsPlain opsSub "bar" (.prim (.num 9))
      lFoo (by decide) (by decide) (by decide) (by decide) (by decide)).1
    rw [h]
    decide

theorem eraseKey_of_not_has {m : CMap} {k : String} (h : hasKey m k = false) :
    eraseKey m k = m := by
  unfold eraseKey
  rw [List.filter_eq_self]
  intro p hp
  simp only [hasKey, List.any_eq_false] at h
  have := h p hp
  simp only [decide_eq_true_eq] at this ⊢
  exact this

theorem buildConfigEff_congr {s t : ConfigState}
    (ho : s.options.readOnlyKeys = t.options.readOnlyKeys)
    (hd : s.defaultConfig = t.defaultConfig)
    (he : s.environmentConfig = t.environmentConfig)
    (hb : s.backendConfig = t.backendConfig)
    (hu : s.userConfig = t.userConfig)
    (hy : s.dynamicConfig = t.dynamicConfig) :
    buildConfigEff s = buildConfigEff t := by
  unfold buildConfigEff buildDefaultValues
  rw [ho, hd, he, hb, hu, hy]

/-- C6: notification is write-triggered, not diff-triggered.  (a) Writing
back the value already effective at `k` still places `k` in the change set
and notifies the subscriber, while the effective value component stays the
same.  (b) `deleteConfig(k)` when `k` is absent from the DYNAMIC store
returns a state EQUAL to the input state — all stores and the effective
mapping unchanged, hence idempotence — yet still delivers one notification
carrying the (unchanged) effective entry at `k`. -/
theorem c6_write_triggered_notification (d : DefaultInput) (o : CfgOptions) (ops : List CfgOp)
    (k : String) (l : Listener)
    (hls : (reachState d o ops).listeners = [l]) (hne : l.keys ≠ [])
    (hkl : l.keys.contains k = true) :
    (∀ c w, effectiveLookup (reachState d o ops) k = some c → cellValue c = some w →
      (reachState d o ops).options.readOnlyKeys.contains k = false →
      (setConfigFn (reachState d o ops) k w).2.2
        = [⟨l.id, [(k, some (ConfigValue.obj w .DYNAMIC (some false)))]⟩]
      ∧ (effectiveLookup (setConfigFn (reachState d o ops) k w).1 k).bind cellValue = some w)
    ∧ (hasKey (reachState d o ops).dynamicConfig k = false →
      (deleteConfigFn (reachState d o ops) k).1 = reachState d o ops
      ∧ (deleteConfigFn (reachState d o ops) k).2
        = [⟨l.id, [(k, effectiveLookup (reachState d o ops) k)]⟩]) := by
  have hwf := wf_reachState d o ops
  obtain ⟨h1, h2, h3, h4, h5, hbuf, hcfg⟩ := hwf
  have haddKey : addKey (reachState d o ops).changedKeysBuffer k = [k] := by
    rw [hbuf]
    rfl
  constructor
  · intro c w hc hcv hro
    obtain ⟨w0, l0, r0, hobj⟩ := effectiveCell_obj ⟨h1, h2, h3, h4, h5, hbuf, hcfg⟩ hc
    have hw : w0 = w := by
      rw [hobj] at hcv
      injection hcv with hh
    have hobj2 : c = ConfigValue.obj w l0 r0 := by rw [hobj, hw]
    rw [setConfigFn_write ⟨h1, h2, h3, h4, h5, hbuf, hcfg⟩ hc hobj2 hro w]
    have hnew := newEffective_at_key ⟨h1, h2, h3, h4, h5, hbuf, hcfg⟩ k w hro
    constructor
    · rw [buildConfig_snd]
      simp only [haddKey, hls] at hnew ⊢
      rw [List.filterMap_cons, listenerEvent_single _ _ _ hne, if_pos hkl, hnew]
      rfl
    · show (lookupKey (buildConfigEff { reachState d o ops with
          dynamicConfig := upsert (reachState d o ops).dynamicConfig k
            (ConfigValue.obj w .DYNAMIC (some false)),
          changedKeysBuffer := addKey (reachState d o ops).changedKeysBuffer k }) k).bind cellValue
          = some w
      rw [hnew]
      rfl
  · intro hdel
    have herase : eraseKey (reachState d o ops).dynamicConfig k
        = (reachState d o ops).dynamicConfig := eraseKey_of_not_has hdel
    have hbe : buildConfigEff { reachState d o ops with
        dynamicConfig := eraseKey (reachState d o ops).dynamicConfig k,
        changedKeysBuffer := addKey (reachState d o ops).changedKeysBuffer k }
        = buildConfigEff (reachState d o ops) :=
      buildConfigEff_congr rfl rfl rfl rfl rfl herase
    constructor
    · have hstate : (deleteConfigFn (reachState d o ops) k).1
          = { reachState d o ops with
              dynamicConfig := eraseKey (reachState d o ops).dynamicConfig k,
              changedKeysBuffer := [],
              config := some (buildConfigEff { reachState d o ops with
                dynamicConfig := eraseKey (reachState d o ops).dynamicConfig k,
                changedKeysBuffer := addKey (reachState d o ops).changedKeysBuffer k }) } := rfl
      rw [hstate, hbe, herase, ← hcfg, ← hbuf]
    · have hevents : (deleteConfigFn (reachState d o ops) k).2
          = (reachState d o ops).listeners.filterMap
              (listenerEvent (buildConfigEff { reachState d o ops with
                dynamicConfig := eraseKey (reachState d o ops).dynamicConfig k,
                changedKeysBuffer := addKey (reachState d o ops).changedKeysBuffer k })
                (addKey (reachState d o ops).changedKeysBuffer k)) := rfl
      rw [hevents, hbe, haddKey, hls]
      rw [List.filterMap_cons, listenerEvent_single _ _ _ hne, if_pos hkl]
      rw [← effectiveLookup_wf ⟨h1, h2, h3, h4, h5, hbuf, hcfg⟩ k]
      rfl

/-- C6 witness: re-setting `foo` to its current default value `"a"` still
notifies the subscriber once with the new DYNAMIC cell, and deleting `foo`
(absent from the DYNAMIC store) leaves the state exactly equal yet still
notifies with the unchanged effective entry. -/
theorem c6_write_triggered_notification_witness :
    (setConfigFn (reachState defsFooBar optsPlain opsSub) "foo" (.prim (.str "a"))).2.2
      = [⟨lFoo.id, [("foo", some (ConfigValue.obj (.prim (.str "a")) .DYNAMIC (some false)))]⟩]
    ∧ (deleteConfigFn (reachState defsFooBar optsPlain opsSub) "foo").1
      = reachState defsFooBar optsPlain opsSub
    ∧ (deleteConfigFn (reachState defsFooBar optsPlain opsSub) "foo").2
      = [⟨lFoo.id, [("foo", effectiveLookup (reachState defsFooBar optsPlain opsSub) "foo")]⟩] := by
  have hA := (c6_write_triggered_notification defsFooBar optsPlain opsSub "foo" lFoo
    (by decide) (by decide) (by decide)).1
    (ConfigValue.obj (.prim (.str "a")) .DEFAULT (some false)) (.prim (.str "a"))
    (by decide) (by decide) (by decide)
  have hB := (c6_write_triggered_notification defsFooBar optsPlain opsSub "foo" lFoo
    (by decide) (by decide) (by decide)).2 (by decide)
  exact ⟨hA.1, hB.1, hB.2⟩

/-- C8 counterexample: subscribe A (`["foo"]`, draw 5), subscribe B
(`["bar"]`, draw 7), unsubscribe A, subscribe C (`["baz"]`, draw 7 at the
same list length 1): B and C receive the SAME id `listener-id-1-7`.
Calling B's unsubscribe then removes BOTH registrations — the other
subscriber C stops being notified — refuting "removes exactly that one
registration". -/
theorem c8_counterexample :
    s8d.1.listeners = [⟨"listener-id-1-7", ["bar"]⟩, ⟨"listener-id-1-7", ["baz"]⟩]
    ∧ s8e.listeners = [] := by
  exact ⟨rfl, rfl⟩

theorem filter_ne_id_eq_erase (ls : List Listener) (l : Listener) (hl : l ∈ ls)
    (hnd : (ls.map Listener.id).Nodup) :
    ls.filter (fun x => x.id ≠ l.id) = ls.erase l := by
  induction ls with
  | nil => cases hl
  | cons a rest ih =>
    rw [List.map_cons, List.nodup_cons] at hnd
    obtain ⟨hna, hndr⟩ := hnd
    rcases List.mem_cons.mp hl with heq | hmem
    · subst heq
      rw [List.filter_cons, if_neg (by simp), List.erase_cons_head, List.filter_eq_self]
      intro x hx
      simp only [decide_eq_true_eq, ne_eq]
      intro hxe
      exact hna (hxe ▸ List.mem_map_of_mem _ hx)
    · have hlid : l.id ∈ rest.map Listener.id := List.mem_map_of_mem _ hmem
      have hane : ¬ (a.id = l.id) := fun h => hna (h ▸ hlid)
      rw [List.filter_cons, if_pos (by simp [hane])]
      rw [List.erase_cons_tail, ih hmem hndr]
      intro hab
      exact hane (congrArg Listener.id (eq_of_beq hab))

theorem filterMap_filter_events (cfg : CMap) (buf : List String) (ls : List Listener)
    (l : Listener) :
    (ls.filter (fun x => x.id ≠ l.id)).filterMap (listenerEvent cfg buf)
      = (ls.filterMap (listenerEvent cfg buf)).filter (fun e => e.listenerId ≠ l.id) := by
  induction ls with
  | nil => rfl
  | cons a rest ih =>
    rw [List.filter_cons]
    by_cases ha : a.id = l.id
    · rw [if_neg (by simp [ha])]
      rw [ih, List.filterMap_cons]
      cases hev : listenerEvent cfg buf a with
      | none => rfl
      | some e =>
        have hid : e.listenerId = a.id := listenerEvent_id _ _ _ _ hev
        rw [List.filter_cons, if_neg (by simp [hid, ha])]
    · rw [if_pos (by simp [ha])]
      rw [List.filterMap_cons, List.filterMap_cons]
      cases hev : listenerEvent cfg buf a with
      | none => exact ih
      | some e =>
        have hid : e.listenerId = a.id := listenerEvent_id _ _ _ _ hev
        rw [List.filter_cons, if_pos (by simp [hid, ha]), ih]

/-- C8 amended: `unsubscribe` removes every registration whose id string
equals the captured one; whenever the live registrations carry pairwise
distinct ids — which holds unless two subscriptions drew the same random
number at the same list length — it removes exactly that one registration
(the listener list becomes `erase l`), it is idempotent (a second call
changes nothing and raises no error), and every remaining registration is
notified exactly as before (the rebuild's event list merely loses the
removed id's events). -/
theorem c8_amended_unsubscribe (s : ConfigState) (l : Listener)
    (hl : l ∈ s.listeners) (hnd : (s.listeners.map Listener.id).Nodup) :
    (unsubscribeFn s l.id).listeners = s.listeners.erase l
    ∧ unsubscribeFn (unsubscribeFn s l.id) l.id = unsubscribeFn s l.id
    ∧ ∀ cfg buf, (unsubscribeFn s l.id).listeners.filterMap (listenerEvent cfg buf)
        = (s.listeners.filterMap (listenerEvent cfg buf)).filter
            (fun e => e.listenerId ≠ l.id) := by
  refine ⟨filter_ne_id_eq_erase _ _ hl hnd, ?_, ?_⟩
  · have hff : (s.listeners.filter (fun x => x.id ≠ l.id)).filter (fun x => x.id ≠ l.id)
        = s.listeners.filter (fun x => x.id ≠ l.id) := by
      rw [List.filter_eq_self]
      intro x hx
      exact (List.mem_filter.mp hx).2
    show ({ s with listeners :=
        (s.listeners.filter (fun x => x.id ≠ l.id)).filter (fun x => x.id ≠ l.id) } : ConfigState)
      = { s with listeners := s.listeners.filter (fun x => x.id ≠ l.id) }
    rw [hff]
  · intro cfg buf
    exact filterMap_filter_events cfg buf s.listeners l

/-- C8 amended witness: with two distinct-id registrations sharing the key
set `["foo"]`, unsubscribing the first removes exactly it and a second call
is a no-op. -/
theorem c8_amended_unsubscribe_witness :
    (unsubscribeFn s8w "listener-id-0-1").listeners
      = s8w.listeners.erase ⟨"listener-id-0-1", ["foo"]⟩
    ∧ unsubscribeFn (unsubscribeFn s8w "listener-id-0-1") "listener-id-0-1"
      = unsubscribeFn s8w "listener-id-0-1" := by
  have h := c8_amended_unsubscribe s8w ⟨"listener-id-0-1", ["foo"]⟩ (by decide) (by decide)
  exact ⟨h.1, h.2.1⟩
